import Mathlib

/-!
# ESP32 smoke / fire controller (`src/main.cpp`)

A shallow embedding of the firmware's decision and actuation logic:

* `decideLevel`, `levelToIrCmd`  : the hysteretic classifier and the level-to-command map;
* `readMQ2Filtered`              : the 20-sample averaging filter;
* `sendIR_NEC`                   : the debounced, de-duplicated IR sender;
* `setup`, `loop`                : start-up sequence and the cooperative scheduler.

Conventions.

* `int` values are `Int`; `uint32_t` values are `Nat` below `2^32`, and subtraction of two
  of them is `u32sub`, taken modulo `2^32`.
* A `float` is a `Flt`: NaN, one of the two infinities, or a finite value.  Every finite
  binary32 value is a rational number, and the firmware only copies floats, tests them with
  `isnan` and compares them with `>=`, all of which are exact, so finite values are carried
  as rationals.
* The global variables of the sketch are the fields of `World`, together with the
  millisecond clock since boot (`clock`, not wrapped; `millis` wraps it to 32 bits) and
  the logs of the calls made to the IR transport, to `postToServer` and to `http.POST`.
* Whatever the outside world decides (the time a peripheral call takes, ADC samples,
  DHT readings, the time between two calls of `loop`) is passed in as an argument.
-/

namespace Firmware

/-! ## Floats -/

/-- A `float` value: NaN, minus infinity, a finite value, plus infinity. -/
inductive Flt where
  | nan : Flt
  | negInf : Flt
  | fin (q : ℚ) : Flt
  | posInf : Flt
  deriving DecidableEq

/-- The C library test `isnan`. -/
def isnan : Flt → Bool
  | Flt.nan => true
  | _ => false

/-- IEEE comparison `a >= b`: false as soon as one side is NaN. -/
def Flt.ge : Flt → Flt → Bool
  | Flt.nan, _ => false
  | _, Flt.nan => false
  | Flt.posInf, _ => true
  | _, Flt.negInf => true
  | Flt.negInf, _ => false
  | _, Flt.posInf => false
  | Flt.fin x, Flt.fin y => decide (y ≤ x)

/-- IEEE comparison `a < b`: false as soon as one side is NaN. -/
def Flt.lt : Flt → Flt → Bool
  | Flt.nan, _ => false
  | _, Flt.nan => false
  | Flt.posInf, _ => false
  | _, Flt.negInf => false
  | Flt.negInf, _ => true
  | _, Flt.posInf => true
  | Flt.fin x, Flt.fin y => decide (x < y)

/-! ## Constants (sections 5 to 7 of the sketch) -/

def IR_ADDR : Nat := 0xEF00
def IR_CMD_OFF : Nat := 0x02
def IR_CMD_ON : Nat := 0x03
def IR_CMD_RED : Nat := 0x04
def IR_CMD_GREEN : Nat := 0x05
def IR_CMD_YELLOW : Nat := 0x08

def SMOKE_SAFE_MAX : Int := 300
def SMOKE_WARN_MAX : Int := 700
def TEMP_DANGER : Flt := Flt.fin 55
def HYST : Int := 20

def SENSOR_PERIOD_MS : Nat := 2000
def POST_PERIOD_MS : Nat := 10000
def WIFI_CHECK_MS : Nat := 12000

/-! ## Hazard level and classifier -/

/-- The enumeration `Level : uint8_t { SAFE = 0, WARN = 1, DANGER = 2 }`. -/
inductive Level where
  | SAFE : Level
  | WARN : Level
  | DANGER : Level
  deriving DecidableEq

/-- `Level decideLevel(int smoke, float temp, Level cur)`. -/
def decideLevel (smoke : Int) (temp : Flt) (cur : Level) : Level :=
  if (!(isnan temp) && Flt.ge temp TEMP_DANGER) = true then Level.DANGER
  else if cur = Level.DANGER then
    if smoke < SMOKE_WARN_MAX - HYST then Level.WARN
    else Level.DANGER
  else if cur = Level.WARN then
    if smoke ≥ SMOKE_WARN_MAX + HYST then Level.DANGER
    else if smoke < SMOKE_SAFE_MAX - HYST then Level.SAFE
    else Level.WARN
  else
    if smoke ≥ SMOKE_WARN_MAX + HYST then Level.DANGER
    else if smoke ≥ SMOKE_SAFE_MAX + HYST then Level.WARN
    else Level.SAFE

/-- `uint8_t levelToIrCmd(Level lv)`. -/
def levelToIrCmd (lv : Level) : Nat :=
  if lv = Level.SAFE then IR_CMD_GREEN
  else if lv = Level.WARN then IR_CMD_YELLOW
  else IR_CMD_RED

/-- The temperature is missing (NaN) or compares below `TEMP_DANGER`. -/
def tempCalm (t : Flt) : Prop :=
  isnan t = true ∨ Flt.lt t TEMP_DANGER = true

instance (t : Flt) : Decidable (tempCalm t) := by
  unfold tempCalm; infer_instance

/-! ## Machine integers -/

/-- The modulus of `uint32_t`. -/
def U32 : Nat := 4294967296

/-- Subtraction of two `uint32_t` values, modulo `2^32`. -/
def u32sub (a b : Nat) : Nat := (a + (U32 - b % U32)) % U32

/-- Wrap an integer into the range of a 32-bit signed `long`. -/
def wrapI32 (x : Int) : Int := (x + 2147483648) % 4294967296 - 2147483648

/-! ## State -/

/-- One call of `IrSender.sendNEC`: the frame, the clock when the call started and the
clock when it returned. -/
structure IrTx where
  addr : Nat
  cmd : Nat
  startMs : Nat
  endMs : Nat
  deriving DecidableEq

/-- The arguments of one call of `postToServer`. -/
structure Report where
  smoke : Int
  temp : Flt
  hum : Flt
  deriving DecidableEq

/-- One `http.POST`: the values serialised into the body and the status code returned. -/
structure HttpReq where
  smoke : Int
  temp : Flt
  hum : Flt
  code : Int
  deriving DecidableEq

/-- The global variables of section 8 of the sketch, the clock and the logs of the calls
made to the outside. -/
structure World where
  lastLevel : Level
  lastIrCmdSent : Nat
  lastIrSendMs : Nat
  lastSmoke : Int
  lastTemp : Flt
  lastHum : Flt
  tLastSensor : Nat
  tLastPost : Nat
  tLastWifi : Nat
  clock : Nat
  irLog : List IrTx
  postLog : List Report
  httpLog : List HttpReq
  deriving DecidableEq

/-- The state at power-up: the initialisers of the globals, clock at zero, empty logs. -/
def boot : World :=
  { lastLevel := Level.SAFE, lastIrCmdSent := 0, lastIrSendMs := 0,
    lastSmoke := 0, lastTemp := Flt.nan, lastHum := Flt.nan,
    tLastSensor := 0, tLastPost := 0, tLastWifi := 0,
    clock := 0, irLog := [], postLog := [], httpLog := [] }

/-- What the outside world contributes to one call of `setup` or `loop`. -/
structure Env where
  /-- Milliseconds elapsed before the call reads the clock. -/
  idle : Nat
  /-- Whether `WiFi.status() == WL_CONNECTED`, as a function of the clock. -/
  wifi : Nat → Bool
  /-- The value returned by the `i`-th `analogRead` of the call. -/
  adc : Nat → Int
  /-- The value returned by `dht.readTemperature()`. -/
  temp : Flt
  /-- The value returned by `dht.readHumidity()`. -/
  hum : Flt
  /-- Milliseconds taken by the two DHT reads. -/
  dhtMs : Nat
  /-- Milliseconds taken by one `IrSender.sendNEC`. -/
  txMs : Nat
  /-- Whether `http.begin` succeeds. -/
  httpBegin : Bool
  /-- The value returned by `http.POST`. -/
  httpCode : Int
  /-- Milliseconds taken by the HTTP exchange. -/
  postMs : Nat

/-- The Arduino call `millis()`: the clock, wrapped to 32 bits. -/
def millis (w : World) : Nat := w.clock % U32

/-- The Arduino call `delay(n)`. -/
def delay (n : Nat) (w : World) : World := { w with clock := w.clock + n }

/-! ## Signal filter -/

/-- The `for` loop of `readMQ2Filtered` after `n` rounds, started from `(sum, w)`:
round `i` adds the `i`-th sample to `sum` and waits 5 ms. -/
def readMQ2Loop (adc : Nat → Int) : Nat → Int × World → Int × World
  | 0, sw => sw
  | n + 1, sw =>
      let r := readMQ2Loop adc n sw
      (wrapI32 (r.1 + adc n), delay 5 r.2)

/-- `int readMQ2Filtered()`: the value returned and the state afterwards.  The division of
`long` by `int` truncates toward zero; `long` and `int` are both 32 bits wide on the ESP32,
so the final cast changes nothing. -/
def readMQ2Filtered (adc : Nat → Int) (w : World) : Int × World :=
  let r := readMQ2Loop adc 20 (0, w)
  (Int.tdiv r.1 20, r.2)

/-! ## IR sender -/

/-- The transport call `IrSender.sendNEC(addr, cmd, 0)`, taking `txMs` milliseconds. -/
def IrSender_sendNEC (txMs addr cmd : Nat) (w : World) : World :=
  { w with
    irLog := w.irLog ++ [{ addr := addr, cmd := cmd, startMs := w.clock,
                           endMs := w.clock + txMs }],
    clock := w.clock + txMs }

/-- `void sendIR_NEC(uint16_t addr, uint8_t cmd)`.  The serial prints that end the
function touch none of the modelled state. -/
def sendIR_NEC (txMs addr cmd : Nat) (w : World) : World :=
  if u32sub (millis w) w.lastIrSendMs < 350 then w
  else if cmd = w.lastIrCmdSent then w
  else
    let w1 := IrSender_sendNEC txMs addr cmd w
    let w2 := { w1 with lastIrCmdSent := cmd }
    { w2 with lastIrSendMs := millis w2 }

/-! ## WiFi and reporting -/

/-- The `while` loop of `connectWiFi`, run for at most `fuel` rounds. -/
def connectWait (wifi : Nat → Bool) (start timeoutMs : Nat) : Nat → World → World
  | 0, w => w
  | fuel + 1, w =>
      if (!(wifi w.clock) && decide (u32sub (millis w) start < timeoutMs)) = true then
        connectWait wifi start timeoutMs fuel (delay 300 w)
      else w

/-- `bool connectWiFi(uint32_t timeoutMs)`.  Each round of the loop waits 300 ms, so
`timeoutMs / 300 + 1` rounds are enough for the elapsed-time test to end it. -/
def connectWiFi (wifi : Nat → Bool) (timeoutMs : Nat) (w : World) : Bool × World :=
  if wifi w.clock = true then (true, w)
  else
    let start := millis w
    let w1 := connectWait wifi start timeoutMs (timeoutMs / 300 + 1) w
    (wifi w1.clock, w1)

/-- `void postToServer(int smoke, float temp, float hum)`. -/
def postToServer (e : Env) (smoke : Int) (temp hum : Flt) (w : World) : World :=
  let w0 := { w with postLog := w.postLog ++ [{ smoke := smoke, temp := temp, hum := hum }] }
  if e.wifi w0.clock = false then w0
  else if e.httpBegin = false then w0
  else
    { w0 with
      httpLog := w0.httpLog ++ [{ smoke := smoke, temp := temp, hum := hum,
                                  code := e.httpCode }],
      clock := w0.clock + e.postMs }

/-! ## `setup` and `loop` -/

/-- `void setup()`. -/
def setup (e : Env) (w : World) : World :=
  let w1 := delay 600 w
  let w2 := sendIR_NEC e.txMs IR_ADDR IR_CMD_ON w1
  let w3 := delay 300 w2
  let w4 := { w3 with lastLevel := Level.SAFE }
  let w5 := sendIR_NEC e.txMs IR_ADDR IR_CMD_GREEN w4
  let w6 := (connectWiFi e.wifi 15000 w5).2
  let w7 := { w6 with tLastSensor := millis w6 }
  let w8 := { w7 with tLastPost := millis w7 }
  { w8 with tLastWifi := millis w8 }

/-- Branch A of `loop`: the periodic WiFi check. -/
def wifiTask (e : Env) (now : Nat) (w : World) : World :=
  let w1 := { w with tLastWifi := now }
  if e.wifi w1.clock = false then (connectWiFi e.wifi 15000 w1).2 else w1

/-- Branch B of `loop` up to and including the two conditional stores of the DHT values. -/
def sampleRead (e : Env) (now : Nat) (w : World) : World :=
  let w1 := { w with tLastSensor := now }
  let r := readMQ2Filtered e.adc w1
  let w2 := { r.2 with lastSmoke := r.1 }
  let t := e.temp
  let h := e.hum
  let w3 := delay e.dhtMs w2
  let w4 := if isnan t = false then { w3 with lastTemp := t } else w3
  if isnan h = false then { w4 with lastHum := h } else w4

/-- Branch B of `loop` from the call of `decideLevel` on. -/
def sampleAct (e : Env) (w : World) : World :=
  let nextLevel := decideLevel w.lastSmoke w.lastTemp w.lastLevel
  if nextLevel ≠ w.lastLevel then
    let w1 := { w with lastLevel := nextLevel }
    sendIR_NEC e.txMs IR_ADDR (levelToIrCmd w1.lastLevel) w1
  else w

/-- Branch B of `loop`: read the sensors, classify, drive the lamp. -/
def sampleTask (e : Env) (now : Nat) (w : World) : World :=
  sampleAct e (sampleRead e now w)

/-- Branch C of `loop`: the periodic report. -/
def reportTask (e : Env) (now : Nat) (w : World) : World :=
  let w1 := { w with tLastPost := now }
  let sendT := if isnan w1.lastTemp = true then Flt.fin 0 else w1.lastTemp
  let sendH := if isnan w1.lastHum = true then Flt.fin 0 else w1.lastHum
  postToServer e w1.lastSmoke sendT sendH w1

/-- `void loop()`, called `e.idle` milliseconds after the previous call returned. -/
def loop (e : Env) (w : World) : World :=
  let w0 := delay e.idle w
  let now := millis w0
  let wa := if u32sub now w0.tLastWifi ≥ WIFI_CHECK_MS then wifiTask e now w0 else w0
  let wb := if u32sub now wa.tLastSensor ≥ SENSOR_PERIOD_MS then sampleTask e now wa else wa
  if u32sub now wb.tLastPost ≥ POST_PERIOD_MS then reportTask e now wb else wb

/-- Successive calls of `loop`, one per environment of the list. -/
def loops : List Env → World → World
  | [], w => w
  | e :: es, w => loops es (loop e w)

/-- A run of the firmware: `setup` from power-up, then the calls of `loop`. -/
def run (e0 : Env) (es : List Env) : World := loops es (setup e0 boot)

/-! ## Vocabulary of the statements -/

/-- One call of `sendIR_NEC`, made `gap` milliseconds after the previous one returned. -/
structure SendCall where
  gap : Nat
  txMs : Nat
  addr : Nat
  cmd : Nat

/-- A sequence of calls of `sendIR_NEC`; time only moves forward between them. -/
def sendCalls : List SendCall → World → World
  | [], w => w
  | c :: cs, w => sendCalls cs (sendIR_NEC c.txMs c.addr c.cmd (delay c.gap w))

/-- Relation between a transmission `a` and the next one `b`: the codes differ, and `b`
starts at least 350 ms after the clock value recorded for `a`, both on the unwrapped
clock and as the 32-bit difference the firmware computes. -/
def spaced (a b : IrTx) : Prop :=
  a.cmd ≠ b.cmd ∧ a.endMs + 350 ≤ b.startMs ∧
    350 ≤ u32sub (b.startMs % U32) (a.endMs % U32)

/-- The command codes of a log of transmissions, oldest first. -/
def cmds (l : List IrTx) : List Nat := l.map IrTx.cmd

/-- What the sender's two variables remember about the log: successive transmissions are
`spaced`, and the last one, if any, is the one recorded in `lastIrCmdSent` and
`lastIrSendMs` and lies in the past. -/
def senderInv (w : World) : Prop :=
  List.Chain' spaced w.irLog ∧
    ∀ x ∈ w.irLog.getLast?,
      x.cmd = w.lastIrCmdSent ∧ x.endMs % U32 = w.lastIrSendMs ∧ x.endMs ≤ w.clock

/-- An environment in which only `delay` moves the clock: every peripheral call returns at
once, the WiFi link is up, the ADC reads 0 and the DHT sensor gives no reading. -/
def quiet : Env :=
  { idle := 0, wifi := fun _ => true, adc := fun _ => 0, temp := Flt.nan, hum := Flt.nan,
    dhtMs := 0, txMs := 0, httpBegin := true, httpCode := 200, postMs := 0 }

/-- A call of `loop` made 2000 ms after the previous one, every ADC sample reading 1000. -/
def smoky : Env := { quiet with idle := 2000, adc := fun _ => 1000 }

/-- A call of `loop` made 2000 ms after the previous one, every ADC sample reading 100. -/
def clean : Env := { quiet with idle := 2000, adc := fun _ => 100 }

/-- A call of `loop` made 2000 ms after the previous one, with smoke 100 and valid DHT
readings of 25 degrees and 40 percent. -/
def warm : Env := { clean with temp := Flt.fin 25, hum := Flt.fin 40 }

/-- The value `readMQ2Filtered` returns for the samples `adc`. -/
def filtered (adc : Nat → Int) : Int := (readMQ2Filtered adc boot).1

/-- The state in which the call `loop e w` reaches branch B. -/
def atSample (e : Env) (w : World) : World :=
  let w0 := delay e.idle w
  let now := millis w0
  if u32sub now w0.tLastWifi ≥ WIFI_CHECK_MS then wifiTask e now w0 else w0

/-- The call `loop e w` runs branch B (a sample tick). -/
def sampleDue (e : Env) (w : World) : Prop :=
  u32sub (millis (delay e.idle w)) (atSample e w).tLastSensor ≥ SENSOR_PERIOD_MS

instance (e : Env) (w : World) : Decidable (sampleDue e w) := by
  unfold sampleDue; infer_instance

/-- The state in which the sample tick of `loop e w` calls `decideLevel`. -/
def atDecide (e : Env) (w : World) : World :=
  sampleRead e (millis (delay e.idle w)) (atSample e w)

/-- The state in which the call `loop e w` reaches branch C. -/
def afterSample (e : Env) (w : World) : World :=
  if sampleDue e w then sampleAct e (atDecide e w) else atSample e w

/-- If the sample tick of `loop e w` calls `sendIR_NEC`, the call is made at least 350 ms
after the recorded time of the previous transmission, as the 32-bit clock measures it. -/
def sendTimely (e : Env) (w : World) : Prop :=
  sampleDue e w →
    decideLevel (atDecide e w).lastSmoke (atDecide e w).lastTemp (atDecide e w).lastLevel
        ≠ (atDecide e w).lastLevel →
    350 ≤ u32sub (millis (atDecide e w)) (atDecide e w).lastIrSendMs

instance (e : Env) (w : World) : Decidable (sendTimely e w) := by
  unfold sendTimely; infer_instance

/-- Every sample tick of the calls `loop e` for `e` in the list, started in `w`, is
`sendTimely`. -/
def timelyFrom : World → List Env → Prop
  | _, [] => True
  | w, e :: es => sendTimely e w ∧ timelyFrom (loop e w) es

/-- The lamp command the sender remembers agrees with the level, or is still the power-on
command of `setup` while the level has not left `SAFE`. -/
def cmdInv (w : World) : Prop :=
  (w.lastIrCmdSent = IR_CMD_ON ∧ w.lastLevel = Level.SAFE) ∨
    w.lastIrCmdSent = levelToIrCmd w.lastLevel

/-- The numeric value of a level in the enumeration; levels are ordered by it. -/
def Level.rank : Level → Nat
  | Level.SAFE => 0
  | Level.WARN => 1
  | Level.DANGER => 2

/-- The levels obtained by calling `decideLevel` on a sequence of (smoke, temperature)
readings, each call starting from the level the previous one returned. -/
def classify (c : Level) : List (Int × Flt) → List Level
  | [] => []
  | r :: rs => decideLevel r.1 r.2 c :: classify (decideLevel r.1 r.2 c) rs

/-- The number of entries of a sequence of levels that differ from the level before
them, `c` being the level before the first. -/
def changes (c : Level) : List Level → Nat
  | [] => 0
  | l :: ls => (if l = c then 0 else 1) + changes l ls

/-- The levels at which the classifier rests while the smoke stays in the band around the
threshold `T`: `SAFE` and `WARN` around `SMOKE_SAFE_MAX`, `WARN` and `DANGER` around
`SMOKE_WARN_MAX`. -/
def settled (T : Int) (c : Level) : Prop :=
  (T = SMOKE_SAFE_MAX → c ≠ Level.DANGER) ∧ (T = SMOKE_WARN_MAX → c ≠ Level.SAFE)

/-- The call `loop e w` runs branch A (a connectivity tick). -/
def wifiDue (e : Env) (w : World) : Prop :=
  u32sub (millis (delay e.idle w)) (delay e.idle w).tLastWifi ≥ WIFI_CHECK_MS

instance (e : Env) (w : World) : Decidable (wifiDue e w) := by
  unfold wifiDue; infer_instance

/-- The call `loop e w` runs branch C (a report tick). -/
def reportDue (e : Env) (w : World) : Prop :=
  u32sub (millis (delay e.idle w)) (afterSample e w).tLastPost ≥ POST_PERIOD_MS

instance (e : Env) (w : World) : Decidable (reportDue e w) := by
  unfold reportDue; infer_instance

/-- A call of `loop` made 10000 ms after the previous one, every ADC sample reading 500:
after `setup` it is a sample tick and a report tick, not a connectivity tick. -/
def tenSeconds : Env := { quiet with idle := 10000, adc := fun _ => 500 }

/-- A call of `loop` made 2000 ms after the previous one, with smoke 100 and a valid
temperature reading of 60 degrees. -/
def hot : Env := { clean with temp := Flt.fin 60 }

/-- The exact sum of the first `n` samples. -/
def sampleSum (adc : Nat → Int) (n : Nat) : Int := ((List.range n).map adc).sum

/-- Twenty samples alternating between full scale (4095) and 0. -/
def alternating : Nat → Int := fun i => if i % 2 = 0 then 4095 else 0

/-- The controller state: the nine global variables of section 8 of the sketch, without
the clock and the logs. -/
def ctl (w : World) : Level × Nat × Nat × Int × Flt × Flt × Nat × Nat × Nat :=
  (w.lastLevel, w.lastIrCmdSent, w.lastIrSendMs, w.lastSmoke, w.lastTemp, w.lastHum,
    w.tLastSensor, w.tLastPost, w.tLastWifi)

/-- Two environments present the same call time and the same sensor readings. -/
def sameSensing (e e' : Env) : Prop :=
  e.idle = e'.idle ∧ e.adc = e'.adc ∧ e.temp = e'.temp ∧ e.hum = e'.hum

/-- Two environments differ at most in what the network does: the WiFi link state and the
outcome and duration of the HTTP exchange. -/
def sameButNet (e e' : Env) : Prop :=
  sameSensing e e' ∧ e.dhtMs = e'.dhtMs ∧ e.txMs = e'.txMs

/-- If the call `loop e w` is a connectivity tick, the link is up when it looks, so that
no connect attempt is made. -/
def noConnect (e : Env) (w : World) : Prop :=
  wifiDue e w → e.wifi (w.clock + e.idle) = true

/-- A call of `loop` made 12000 ms after the previous one with the WiFi link down and
every ADC sample reading 1000. -/
def offline : Env := { smoky with idle := 12000, wifi := fun _ => false }

/-- A call of `loop` made as soon as the previous one returned, the WiFi link up and
every ADC sample reading 100. -/
def backOnline : Env := { clean with idle := 0 }

/-- The same call as `clean` with the WiFi link down. -/
def cleanOffline : Env := { clean with wifi := fun _ => false }

/-- The same call as `backOnline` with the WiFi link down. -/
def stillOffline : Env := { backOnline with wifi := fun _ => false }

/-- A call of `loop` made 4294967096 ms after the previous one returned, every ADC sample
reading 1000: made right after `setup`, its send comes `2^32 + 200` ms after the power-on
transmission. -/
def late : Env := { smoky with idle := 4294967096 }

/-- A call of `loop` made 12000 ms after the previous one with the WiFi link up and every
ADC sample reading 1000: after `setup` it is a connectivity, a sample and a report tick. -/
def twelveSeconds : Env := { smoky with idle := 12000 }

/-- The same call as `twelveSeconds` with `http.begin` failing. -/
def twelveSecondsNoHttp : Env := { twelveSeconds with httpBegin := false }

set_option maxRecDepth 100000

/-! ## Classifier lemmas -/

/-- With a calm temperature the override test of `decideLevel` is false. -/
theorem override_off_of_calm (t : Flt) (h : tempCalm t) :
    (!(isnan t) && Flt.ge t TEMP_DANGER) = false := by
  cases t with
  | nan => simp [isnan]
  | negInf => simp [isnan, Flt.ge, TEMP_DANGER]
  | posInf =>
      rcases h with h | h
      · simp [isnan] at h
      · simp [Flt.lt, TEMP_DANGER] at h
  | fin q =>
      rcases h with h | h
      · simp [isnan] at h
      · simp only [Flt.lt, TEMP_DANGER, decide_eq_true_eq] at h
        simp [isnan, Flt.ge, TEMP_DANGER, h]

/-- C1. Temperature override: a valid (non-NaN) temperature that compares `>= TEMP_DANGER`
forces `DANGER`, for every smoke value and every current level. -/
theorem decideLevel_temp_override (s : Int) (t : Flt) (c : Level)
    (hvalid : isnan t = false) (hhot : Flt.ge t TEMP_DANGER = true) :
    decideLevel s t c = Level.DANGER := by
  simp [decideLevel, hvalid, hhot]

/-- Scenario 4 of the specification: smoke 50, temperature 60.0, from `SAFE`. -/
theorem decideLevel_temp_override_witness :
    isnan (Flt.fin 60) = false ∧ Flt.ge (Flt.fin 60) TEMP_DANGER = true ∧
      decideLevel 50 (Flt.fin 60) Level.SAFE = Level.DANGER :=
  ⟨rfl, by simp [Flt.ge, TEMP_DANGER]; norm_num,
    decideLevel_temp_override 50 (Flt.fin 60) Level.SAFE rfl
      (by simp [Flt.ge, TEMP_DANGER]; norm_num)⟩

/-- With a calm temperature, `decideLevel` from `DANGER` is the one-threshold test. -/
theorem decideLevel_danger_eq (s : Int) (t : Flt) (ht : tempCalm t) :
    decideLevel s t Level.DANGER = if s < 680 then Level.WARN else Level.DANGER := by
  simp [decideLevel, override_off_of_calm t ht, SMOKE_WARN_MAX, HYST]

/-- With a calm temperature, `decideLevel` from `WARN` is the two-threshold test. -/
theorem decideLevel_warn_eq (s : Int) (t : Flt) (ht : tempCalm t) :
    decideLevel s t Level.WARN =
      if 720 ≤ s then Level.DANGER else if s < 280 then Level.SAFE else Level.WARN := by
  simp [decideLevel, override_off_of_calm t ht, SMOKE_WARN_MAX, SMOKE_SAFE_MAX, HYST]

/-- With a calm temperature, `decideLevel` from `SAFE` is the two-threshold test. -/
theorem decideLevel_safe_eq (s : Int) (t : Flt) (ht : tempCalm t) :
    decideLevel s t Level.SAFE =
      if 720 ≤ s then Level.DANGER else if 320 ≤ s then Level.WARN else Level.SAFE := by
  simp [decideLevel, override_off_of_calm t ht, SMOKE_WARN_MAX, SMOKE_SAFE_MAX, HYST]

/-- C2. `DANGER` is sticky and steps down one level at a time: with the temperature
missing or below `TEMP_DANGER`, `decideLevel s t DANGER` is `WARN` when
`s < SMOKE_WARN_MAX - HYST` (680) and `DANGER` otherwise, and it is never `SAFE`. -/
theorem decideLevel_from_danger (s : Int) (t : Flt) (ht : tempCalm t) :
    (s < SMOKE_WARN_MAX - HYST → decideLevel s t Level.DANGER = Level.WARN) ∧
    (¬ s < SMOKE_WARN_MAX - HYST → decideLevel s t Level.DANGER = Level.DANGER) ∧
    decideLevel s t Level.DANGER ≠ Level.SAFE ∧
    SMOKE_WARN_MAX - HYST = 680 := by
  rw [decideLevel_danger_eq s t ht]
  simp only [SMOKE_WARN_MAX, HYST]
  norm_num
  split_ifs with h1 <;> simp

/-- Scenario 3 of the specification: from `DANGER`, smoke 650 and no temperature give
`WARN`, not `SAFE`. -/
theorem decideLevel_from_danger_witness :
    tempCalm Flt.nan ∧ decideLevel 650 Flt.nan Level.DANGER = Level.WARN ∧
      decideLevel 0 Flt.nan Level.DANGER ≠ Level.SAFE :=
  ⟨by decide,
    (decideLevel_from_danger 650 Flt.nan (by decide)).1 (by decide),
    (decideLevel_from_danger 0 Flt.nan (by decide)).2.2.1⟩

/-- C3. Escalation from `SAFE`: with the temperature missing or below `TEMP_DANGER`,
`decideLevel s t SAFE` is `DANGER` iff `s >= SMOKE_WARN_MAX + HYST` (720), `WARN` iff
`SMOKE_SAFE_MAX + HYST <= s < SMOKE_WARN_MAX + HYST` (320 and 720), and `SAFE` iff
`s < SMOKE_SAFE_MAX + HYST`. -/
theorem decideLevel_from_safe (s : Int) (t : Flt) (ht : tempCalm t) :
    (decideLevel s t Level.SAFE = Level.DANGER ↔ SMOKE_WARN_MAX + HYST ≤ s) ∧
    (decideLevel s t Level.SAFE = Level.WARN ↔
      SMOKE_SAFE_MAX + HYST ≤ s ∧ s < SMOKE_WARN_MAX + HYST) ∧
    (decideLevel s t Level.SAFE = Level.SAFE ↔ s < SMOKE_SAFE_MAX + HYST) ∧
    SMOKE_WARN_MAX + HYST = 720 ∧ SMOKE_SAFE_MAX + HYST = 320 := by
  rw [decideLevel_safe_eq s t ht]
  simp only [SMOKE_WARN_MAX, SMOKE_SAFE_MAX, HYST]
  norm_num
  split_ifs with h1 h2 <;> simp <;> omega

/-- From `SAFE` without a temperature: 100 stays `SAFE`, 1000 gives `DANGER`. -/
theorem decideLevel_from_safe_witness :
    tempCalm Flt.nan ∧ decideLevel 100 Flt.nan Level.SAFE = Level.SAFE ∧
      decideLevel 1000 Flt.nan Level.SAFE = Level.DANGER :=
  ⟨by decide,
    (decideLevel_from_safe 100 Flt.nan (by decide)).2.2.1.2 (by decide),
    (decideLevel_from_safe 1000 Flt.nan (by decide)).1.2 (by decide)⟩

/-- C4. Transitions from `WARN`: with the temperature missing or below `TEMP_DANGER`,
`decideLevel s t WARN` is `DANGER` iff `s >= SMOKE_WARN_MAX + HYST` (720), `SAFE` iff
`s < SMOKE_SAFE_MAX - HYST` (280), and `WARN` iff `280 <= s < 720`. -/
theorem decideLevel_from_warn (s : Int) (t : Flt) (ht : tempCalm t) :
    (decideLevel s t Level.WARN = Level.DANGER ↔ SMOKE_WARN_MAX + HYST ≤ s) ∧
    (decideLevel s t Level.WARN = Level.SAFE ↔ s < SMOKE_SAFE_MAX - HYST) ∧
    (decideLevel s t Level.WARN = Level.WARN ↔
      SMOKE_SAFE_MAX - HYST ≤ s ∧ s < SMOKE_WARN_MAX + HYST) ∧
    SMOKE_WARN_MAX + HYST = 720 ∧ SMOKE_SAFE_MAX - HYST = 280 := by
  rw [decideLevel_warn_eq s t ht]
  simp only [SMOKE_WARN_MAX, SMOKE_SAFE_MAX, HYST]
  norm_num
  split_ifs with h1 h2 <;> simp <;> omega

/-- From `WARN` with a temperature of 25: 279 gives `SAFE`, 280 stays `WARN`. -/
theorem decideLevel_from_warn_witness :
    tempCalm (Flt.fin 25) ∧ decideLevel 279 (Flt.fin 25) Level.WARN = Level.SAFE ∧
      decideLevel 280 (Flt.fin 25) Level.WARN = Level.WARN :=
  ⟨by decide,
    (decideLevel_from_warn 279 (Flt.fin 25) (by decide)).2.1.2 (by decide),
    (decideLevel_from_warn 280 (Flt.fin 25) (by decide)).2.2.1.2 (by decide)⟩

/-- C8. Level-to-command mapping: `SAFE` gives green (0x05), `WARN` yellow (0x08), `DANGER`
red (0x04), and two different levels never give the same command. -/
theorem levelToIrCmd_table :
    levelToIrCmd Level.SAFE = IR_CMD_GREEN ∧ IR_CMD_GREEN = 0x05 ∧
    levelToIrCmd Level.WARN = IR_CMD_YELLOW ∧ IR_CMD_YELLOW = 0x08 ∧
    levelToIrCmd Level.DANGER = IR_CMD_RED ∧ IR_CMD_RED = 0x04 ∧
    (∀ a b : Level, levelToIrCmd a = levelToIrCmd b → a = b) := by
  refine ⟨rfl, rfl, rfl, rfl, rfl, rfl, ?_⟩
  intro a b
  cases a <;> cases b <;> decide

/-! ## The IR sender -/

/-- The 32-bit difference of two wrapped clock values is the elapsed time modulo `2^32`. -/
theorem u32sub_wrapped (later earlier : Nat) (h : earlier ≤ later) :
    u32sub (later % U32) (earlier % U32) = (later - earlier) % U32 := by
  unfold u32sub U32
  omega

/-- When one of its two tests fails, `sendIR_NEC` returns without touching anything. -/
theorem sendIR_NEC_skip (txMs addr cmd : Nat) (w : World)
    (h : ¬ (350 ≤ u32sub (millis w) w.lastIrSendMs ∧ cmd ≠ w.lastIrCmdSent)) :
    sendIR_NEC txMs addr cmd w = w := by
  unfold sendIR_NEC
  by_cases h1 : u32sub (millis w) w.lastIrSendMs < 350
  · rw [if_pos h1]
  · rw [if_neg h1]
    have h2 : cmd = w.lastIrCmdSent := by
      by_contra hne
      exact h ⟨by omega, hne⟩
    rw [if_pos h2]

/-- When both tests pass, `sendIR_NEC` transmits and records the command and the time. -/
theorem sendIR_NEC_fire (txMs addr cmd : Nat) (w : World)
    (h : 350 ≤ u32sub (millis w) w.lastIrSendMs ∧ cmd ≠ w.lastIrCmdSent) :
    sendIR_NEC txMs addr cmd w =
      { w with
        irLog := w.irLog ++ [{ addr := addr, cmd := cmd, startMs := w.clock,
                               endMs := w.clock + txMs }],
        clock := w.clock + txMs,
        lastIrCmdSent := cmd,
        lastIrSendMs := (w.clock + txMs) % U32 } := by
  unfold sendIR_NEC
  have h1 : ¬ u32sub (millis w) w.lastIrSendMs < 350 := by omega
  rw [if_neg h1, if_neg h.2]
  rfl

/-- The log grows in a call of `sendIR_NEC` exactly when both tests pass. -/
theorem sendIR_NEC_sent_iff (txMs addr cmd : Nat) (w : World) :
    (sendIR_NEC txMs addr cmd w).irLog ≠ w.irLog ↔
      (350 ≤ u32sub (millis w) w.lastIrSendMs ∧ cmd ≠ w.lastIrCmdSent) := by
  by_cases h : 350 ≤ u32sub (millis w) w.lastIrSendMs ∧ cmd ≠ w.lastIrCmdSent
  · rw [sendIR_NEC_fire txMs addr cmd w h]
    simp [h]
  · rw [sendIR_NEC_skip txMs addr cmd w h]
    simp [h]

/-- C5. Send policy of `sendIR_NEC`: a call transmits `cmd` iff the 32-bit difference
`millis() - lastIrSendMs` is at least 350 and `cmd` differs from `lastIrCmdSent`; when it
transmits, `lastIrCmdSent` becomes `cmd`, `lastIrSendMs` becomes the clock read after the
transmission and nothing else changes but the clock and the log; when either test fails
the whole state is unchanged.  In particular a different command submitted less than
350 ms after the recorded send time is suppressed. -/
theorem sendIR_NEC_policy (txMs addr cmd : Nat) (w : World) :
    ((sendIR_NEC txMs addr cmd w).irLog ≠ w.irLog ↔
      (350 ≤ u32sub (millis w) w.lastIrSendMs ∧ cmd ≠ w.lastIrCmdSent)) ∧
    ((350 ≤ u32sub (millis w) w.lastIrSendMs ∧ cmd ≠ w.lastIrCmdSent) →
      sendIR_NEC txMs addr cmd w =
        { w with
          irLog := w.irLog ++ [{ addr := addr, cmd := cmd, startMs := w.clock,
                                 endMs := w.clock + txMs }],
          clock := w.clock + txMs,
          lastIrCmdSent := cmd,
          lastIrSendMs := (w.clock + txMs) % U32 }) ∧
    (¬ (350 ≤ u32sub (millis w) w.lastIrSendMs ∧ cmd ≠ w.lastIrCmdSent) →
      sendIR_NEC txMs addr cmd w = w) ∧
    (cmd ≠ w.lastIrCmdSent → u32sub (millis w) w.lastIrSendMs < 350 →
      sendIR_NEC txMs addr cmd w = w) := by
  refine ⟨sendIR_NEC_sent_iff txMs addr cmd w, sendIR_NEC_fire txMs addr cmd w,
    sendIR_NEC_skip txMs addr cmd w, ?_⟩
  intro _ hlt
  apply sendIR_NEC_skip
  intro hp
  omega

/-- The sender at work: a first command after 600 ms is transmitted, a different one
300 ms later is dropped. -/
theorem sendIR_NEC_policy_witness :
    (sendIR_NEC 0 IR_ADDR IR_CMD_ON (delay 600 boot)).irLog ≠ (delay 600 boot).irLog ∧
    sendIR_NEC 0 IR_ADDR IR_CMD_GREEN (delay 300 (sendIR_NEC 0 IR_ADDR IR_CMD_ON (delay 600 boot)))
      = delay 300 (sendIR_NEC 0 IR_ADDR IR_CMD_ON (delay 600 boot)) :=
  ⟨(sendIR_NEC_policy 0 IR_ADDR IR_CMD_ON (delay 600 boot)).1.2 (by decide),
    (sendIR_NEC_policy 0 IR_ADDR IR_CMD_GREEN
      (delay 300 (sendIR_NEC 0 IR_ADDR IR_CMD_ON (delay 600 boot)))).2.2.2
      (by decide) (by decide)⟩

/-- Waiting keeps `senderInv`. -/
theorem senderInv_delay (n : Nat) (w : World) (h : senderInv w) : senderInv (delay n w) := by
  refine ⟨h.1, fun x hx => ?_⟩
  obtain ⟨h1, h2, h3⟩ := h.2 x hx
  exact ⟨h1, h2, Nat.le_trans h3 (Nat.le_add_right _ _)⟩

/-- A call of `sendIR_NEC` keeps `senderInv`. -/
theorem senderInv_send (txMs addr cmd : Nat) (w : World) (h : senderInv w) :
    senderInv (sendIR_NEC txMs addr cmd w) := by
  by_cases hc : 350 ≤ u32sub (millis w) w.lastIrSendMs ∧ cmd ≠ w.lastIrCmdSent
  · rw [sendIR_NEC_fire txMs addr cmd w hc]
    refine ⟨?_, ?_⟩
    · refine List.Chain'.append h.1 (List.chain'_singleton _) ?_
      intro x hx y hy
      obtain ⟨h1, h2, h3⟩ := h.2 x hx
      simp only [List.head?_cons, Option.mem_def, Option.some.injEq] at hy
      subst hy
      have hgap : 350 ≤ u32sub (w.clock % U32) (x.endMs % U32) := by
        have := hc.1
        rw [millis, ← h2] at this
        exact this
      have hw := u32sub_wrapped w.clock x.endMs h3
      refine ⟨?_, ?_, hgap⟩
      · rw [h1]
        exact fun e => hc.2 e.symm
      · rw [hw] at hgap
        have hle : (w.clock - x.endMs) % U32 ≤ w.clock - x.endMs := Nat.mod_le _ _
        show x.endMs + 350 ≤ w.clock
        omega
    · intro x hx
      simp only [List.getLast?_append, List.getLast?_singleton, Option.or_some,
        Option.mem_def, Option.some.injEq] at hx
      subst hx
      exact ⟨rfl, rfl, Nat.le_refl _⟩
  · rw [sendIR_NEC_skip txMs addr cmd w hc]
    exact h

/-- Every sequence of calls keeps `senderInv`. -/
theorem senderInv_sendCalls (cs : List SendCall) (w : World) (h : senderInv w) :
    senderInv (sendCalls cs w) := by
  induction cs generalizing w with
  | nil => exact h
  | cons c cs ih => exact ih _ (senderInv_send _ _ _ _ (senderInv_delay _ _ h))

/-- C6. Actuator trace invariant: after any sequence of `sendIR_NEC` calls from the
power-up state, any two successive transmissions carry different command codes and the
later one starts at least 350 ms after the time recorded for the earlier one; and of two
consecutive calls with the same command, the first of which is transmitted, exactly one
is transmitted. -/
theorem sendIR_NEC_trace :
    (∀ cs : List SendCall, List.Chain' spaced (sendCalls cs boot).irLog) ∧
    (∀ (w : World) (c1 c2 : SendCall), c1.cmd = c2.cmd →
      (sendCalls [c1] w).irLog ≠ w.irLog →
      (sendCalls [c1, c2] w).irLog =
        w.irLog ++ [{ addr := c1.addr, cmd := c1.cmd, startMs := w.clock + c1.gap,
                      endMs := w.clock + c1.gap + c1.txMs }]) := by
  constructor
  · intro cs
    refine (senderInv_sendCalls cs boot ⟨?_, ?_⟩).1
    · exact List.chain'_nil
    · intro x hx
      simp [boot] at hx
  · intro w c1 c2 hsame hsent
    simp only [sendCalls] at hsent ⊢
    have hpass := (sendIR_NEC_sent_iff c1.txMs c1.addr c1.cmd (delay c1.gap w)).1 hsent
    rw [sendIR_NEC_fire c1.txMs c1.addr c1.cmd (delay c1.gap w) hpass]
    rw [sendIR_NEC_skip]
    · rfl
    · intro hc
      exact hc.2 hsame.symm

/-- Four calls from power-up: power-on at 600 ms is sent, green 300 ms later is dropped,
green 100 ms after that is sent, and a second green at once is dropped. -/
theorem sendIR_NEC_trace_witness :
    cmds (sendCalls [⟨600, 0, IR_ADDR, IR_CMD_ON⟩, ⟨300, 0, IR_ADDR, IR_CMD_GREEN⟩,
      ⟨100, 0, IR_ADDR, IR_CMD_GREEN⟩, ⟨0, 0, IR_ADDR, IR_CMD_GREEN⟩] boot).irLog
      = [IR_CMD_ON, IR_CMD_GREEN] ∧
    List.Chain' spaced
      (sendCalls [⟨600, 0, IR_ADDR, IR_CMD_ON⟩, ⟨300, 0, IR_ADDR, IR_CMD_GREEN⟩,
        ⟨100, 0, IR_ADDR, IR_CMD_GREEN⟩, ⟨0, 0, IR_ADDR, IR_CMD_GREEN⟩] boot).irLog :=
  ⟨by decide, sendIR_NEC_trace.1 _⟩

/-! ## Frame lemmas: what each piece of the firmware can change -/

/-- The wait loop of `connectWiFi` changes nothing but the clock. -/
theorem connectWait_frame (wifi : Nat → Bool) (start timeoutMs fuel : Nat) (w : World) :
    connectWait wifi start timeoutMs fuel w =
      { w with clock := (connectWait wifi start timeoutMs fuel w).clock } := by
  induction fuel generalizing w with
  | zero => rfl
  | succ n ih =>
      unfold connectWait
      split
      · rw [ih (delay 300 w)]
        rfl
      · rfl

/-- The call `connectWiFi` changes nothing but the clock. -/
theorem connectWiFi_frame (wifi : Nat → Bool) (timeoutMs : Nat) (w : World) :
    (connectWiFi wifi timeoutMs w).2 =
      { w with clock := (connectWiFi wifi timeoutMs w).2.clock } := by
  unfold connectWiFi
  split
  · rfl
  · exact connectWait_frame wifi _ timeoutMs _ w

/-- The state after `n` rounds of the filter loop: only the clock has moved. -/
theorem readMQ2Loop_snd (adc : Nat → Int) (n : Nat) (s : Int) (w : World) :
    (readMQ2Loop adc n (s, w)).2 = { w with clock := w.clock + 5 * n } := by
  induction n with
  | zero => rfl
  | succ n ih =>
      simp only [readMQ2Loop, ih, delay]
      congr 1

/-- The sum after `n` rounds of the filter loop does not depend on the state. -/
theorem readMQ2Loop_fst (adc : Nat → Int) (n : Nat) (s : Int) (w w' : World) :
    (readMQ2Loop adc n (s, w)).1 = (readMQ2Loop adc n (s, w')).1 := by
  induction n with
  | zero => rfl
  | succ n ih => simp only [readMQ2Loop, ih]

/-- The call `readMQ2Filtered` returns `filtered adc` and moves the clock by 100 ms. -/
theorem readMQ2Filtered_eq (adc : Nat → Int) (w : World) :
    readMQ2Filtered adc w = (filtered adc, { w with clock := w.clock + 100 }) := by
  unfold filtered readMQ2Filtered
  simp only [readMQ2Loop_snd]
  rw [readMQ2Loop_fst adc 20 0 w boot]

/-! ## Start-up -/

/-- Whatever the environment, `setup` transmits the power-on command at 600 ms and nothing
else: the green command is requested 300 ms after the recorded send time and dropped by
the 350 ms test. -/
theorem setup_sender (e : Env) :
    (setup e boot).irLog =
      [{ addr := IR_ADDR, cmd := IR_CMD_ON, startMs := 600, endMs := 600 + e.txMs }] ∧
    (setup e boot).lastIrCmdSent = IR_CMD_ON ∧
    (setup e boot).lastIrSendMs = (600 + e.txMs) % U32 ∧
    (setup e boot).lastLevel = Level.SAFE := by
  have h1 : sendIR_NEC e.txMs IR_ADDR IR_CMD_ON (delay 600 boot) = _ :=
    sendIR_NEC_fire e.txMs IR_ADDR IR_CMD_ON (delay 600 boot) (by decide)
  have h2 : ∀ w : World, w.lastIrSendMs = (600 + e.txMs) % U32 → w.clock = 600 + e.txMs + 300 →
      sendIR_NEC e.txMs IR_ADDR IR_CMD_GREEN w = w := by
    intro w hs hc
    apply sendIR_NEC_skip
    intro hp
    have := hp.1
    rw [millis, hs, hc, u32sub_wrapped _ _ (by omega)] at this
    unfold U32 at this
    omega
  unfold setup
  simp only [h1]
  rw [h2 _ rfl rfl, connectWiFi_frame]
  exact ⟨rfl, rfl, rfl, rfl⟩

/-- C7. Start-up sequence, evaluated with only `delay` moving the clock: `setup` from the
power-up state transmits the power-on command alone.  The green command of line 259 is
requested when `millis() - lastIrSendMs` is 300 and is dropped by the 350 ms test of
`sendIR_NEC`, so the transmitted sequence is `[0x03]`, not `[0x03, 0x05]`, and the last
sent command on entering `loop` is power-on, not green. -/
theorem setup_drops_green :
    cmds (setup quiet boot).irLog = [IR_CMD_ON] ∧
    cmds (setup quiet boot).irLog ≠ [IR_CMD_ON, IR_CMD_GREEN] ∧
    (setup quiet boot).lastIrCmdSent = IR_CMD_ON ∧
    (setup quiet boot).lastIrCmdSent ≠ IR_CMD_GREEN ∧
    (setup quiet boot).lastLevel = Level.SAFE ∧
    u32sub (millis (delay 300 (sendIR_NEC quiet.txMs IR_ADDR IR_CMD_ON (delay 600 boot))))
      (delay 300 (sendIR_NEC quiet.txMs IR_ADDR IR_CMD_ON (delay 600 boot))).lastIrSendMs = 300 := by
  decide

/-! ## One call of `loop` -/

/-- Branch A changes nothing but `tLastWifi` and the clock. -/
theorem wifiTask_frame (e : Env) (now : Nat) (w : World) :
    wifiTask e now w = { w with tLastWifi := now, clock := (wifiTask e now w).clock } := by
  have h : ∃ c, wifiTask e now w = { w with tLastWifi := now, clock := c } := by
    unfold wifiTask
    dsimp only
    by_cases h : e.wifi w.clock = false
    · rw [if_pos h, connectWiFi_frame]
      exact ⟨_, rfl⟩
    · rw [if_neg h]
      exact ⟨_, rfl⟩
  obtain ⟨c, hc⟩ := h
  rw [hc]

/-- On reaching branch B only `tLastWifi` and the clock can have changed. -/
theorem atSample_frame (e : Env) (w : World) :
    atSample e w =
      { w with tLastWifi := (atSample e w).tLastWifi, clock := (atSample e w).clock } := by
  have h : ∃ t c, atSample e w = { w with tLastWifi := t, clock := c } := by
    unfold atSample
    dsimp only
    by_cases h : u32sub (millis (delay e.idle w)) (delay e.idle w).tLastWifi ≥ WIFI_CHECK_MS
    · rw [if_pos h, wifiTask_frame]
      exact ⟨_, _, rfl⟩
    · rw [if_neg h]
      exact ⟨_, _, rfl⟩
  obtain ⟨t, c, hc⟩ := h
  rw [hc]

/-- The first half of branch B: the smoke value is stored, a DHT value is stored only
when it is not NaN, and `tLastSensor` and the clock are updated. -/
theorem sampleRead_eq (e : Env) (now : Nat) (w : World) :
    sampleRead e now w =
      { w with
        tLastSensor := now,
        lastSmoke := filtered e.adc,
        lastTemp := if isnan e.temp = false then e.temp else w.lastTemp,
        lastHum := if isnan e.hum = false then e.hum else w.lastHum,
        clock := w.clock + 100 + e.dhtMs } := by
  unfold sampleRead
  dsimp only
  rw [readMQ2Filtered_eq]
  dsimp only [delay]
  by_cases ht : isnan e.temp = false
  · rw [if_pos ht, if_pos ht]
    by_cases hh : isnan e.hum = false
    · rw [if_pos hh, if_pos hh]
    · rw [if_neg hh, if_neg hh]
  · rw [if_neg ht, if_neg ht]
    by_cases hh : isnan e.hum = false
    · rw [if_pos hh, if_pos hh]
    · rw [if_neg hh, if_neg hh]

/-- When `decideLevel` is called the smoke value is the filtered one, the temperature is
the fresh one if valid and the retained one otherwise, and the level and the sender's
variables are those at the start of the call of `loop`. -/
theorem atDecide_fields (e : Env) (w : World) :
    (atDecide e w).lastSmoke = filtered e.adc ∧
    (atDecide e w).lastTemp = (if isnan e.temp = false then e.temp else w.lastTemp) ∧
    (atDecide e w).lastHum = (if isnan e.hum = false then e.hum else w.lastHum) ∧
    (atDecide e w).lastLevel = w.lastLevel ∧
    (atDecide e w).lastIrCmdSent = w.lastIrCmdSent ∧
    (atDecide e w).lastIrSendMs = w.lastIrSendMs ∧
    (atDecide e w).irLog = w.irLog := by
  have h := atSample_frame e w
  unfold atDecide
  rw [sampleRead_eq]
  dsimp only
  rw [h]
  simp only [and_self]

/-- The call `postToServer` changes nothing but the clock and the two report logs. -/
theorem postToServer_frame (e : Env) (smoke : Int) (temp hum : Flt) (w : World) :
    postToServer e smoke temp hum w =
      { w with
        clock := (postToServer e smoke temp hum w).clock,
        postLog := (postToServer e smoke temp hum w).postLog,
        httpLog := (postToServer e smoke temp hum w).httpLog } := by
  have h : ∃ c p q, postToServer e smoke temp hum w =
      { w with clock := c, postLog := p, httpLog := q } := by
    unfold postToServer
    dsimp only
    by_cases h1 : e.wifi w.clock = false
    · rw [if_pos h1]
      exact ⟨_, _, _, rfl⟩
    · rw [if_neg h1]
      by_cases h2 : e.httpBegin = false
      · rw [if_pos h2]
        exact ⟨_, _, _, rfl⟩
      · rw [if_neg h2]
        exact ⟨_, _, _, rfl⟩
  obtain ⟨c, p, q, hc⟩ := h
  rw [hc]

/-- Branch C changes nothing but `tLastPost`, the clock and the two report logs. -/
theorem reportTask_frame (e : Env) (now : Nat) (w : World) :
    reportTask e now w =
      { w with
        tLastPost := now,
        clock := (reportTask e now w).clock,
        postLog := (reportTask e now w).postLog,
        httpLog := (reportTask e now w).httpLog } := by
  unfold reportTask
  dsimp only
  rw [postToServer_frame]

/-- The call `loop e w` is branch C applied to the state left by branches A and B. -/
theorem loop_eq (e : Env) (w : World) :
    loop e w =
      if u32sub (millis (delay e.idle w)) (afterSample e w).tLastPost ≥ POST_PERIOD_MS then
        reportTask e (millis (delay e.idle w)) (afterSample e w)
      else afterSample e w := by
  rfl

/-- The variables branch C leaves alone, read after the call `loop e w`. -/
theorem loop_fields (e : Env) (w : World) :
    (loop e w).lastLevel = (afterSample e w).lastLevel ∧
    (loop e w).lastIrCmdSent = (afterSample e w).lastIrCmdSent ∧
    (loop e w).lastIrSendMs = (afterSample e w).lastIrSendMs ∧
    (loop e w).lastSmoke = (afterSample e w).lastSmoke ∧
    (loop e w).lastTemp = (afterSample e w).lastTemp ∧
    (loop e w).lastHum = (afterSample e w).lastHum ∧
    (loop e w).irLog = (afterSample e w).irLog := by
  rw [loop_eq]
  by_cases h : u32sub (millis (delay e.idle w)) (afterSample e w).tLastPost ≥ POST_PERIOD_MS
  · rw [if_pos h, reportTask_frame]
    exact ⟨rfl, rfl, rfl, rfl, rfl, rfl, rfl⟩
  · rw [if_neg h]
    exact ⟨rfl, rfl, rfl, rfl, rfl, rfl, rfl⟩

/-! ## The sample tick -/

/-- No lamp command equals the power-on command. -/
theorem levelToIrCmd_ne_on (l : Level) : levelToIrCmd l ≠ IR_CMD_ON := by
  cases l <;> decide

/-- Different levels have different lamp commands. -/
theorem levelToIrCmd_injective (a b : Level) (h : levelToIrCmd a = levelToIrCmd b) : a = b := by
  revert h
  cases a <;> cases b <;> decide

/-- The second half of branch B when the level does not change: nothing happens. -/
theorem sampleAct_same (e : Env) (s : World)
    (h : decideLevel s.lastSmoke s.lastTemp s.lastLevel = s.lastLevel) :
    sampleAct e s = s := by
  unfold sampleAct
  dsimp only
  rw [if_neg (not_not.mpr h)]

/-- The second half of branch B when the level changes, under `cmdInv` and with the
debounce test passed: the new level is stored and its command is transmitted. -/
theorem sampleAct_change (e : Env) (s : World) (hinv : cmdInv s)
    (h : decideLevel s.lastSmoke s.lastTemp s.lastLevel ≠ s.lastLevel)
    (ht : 350 ≤ u32sub (millis s) s.lastIrSendMs) :
    sampleAct e s =
      { s with
        lastLevel := decideLevel s.lastSmoke s.lastTemp s.lastLevel,
        irLog := s.irLog ++
          [{ addr := IR_ADDR, cmd := levelToIrCmd (decideLevel s.lastSmoke s.lastTemp s.lastLevel),
             startMs := s.clock, endMs := s.clock + e.txMs }],
        clock := s.clock + e.txMs,
        lastIrCmdSent := levelToIrCmd (decideLevel s.lastSmoke s.lastTemp s.lastLevel),
        lastIrSendMs := (s.clock + e.txMs) % U32 } := by
  unfold sampleAct
  dsimp only
  rw [if_pos h, sendIR_NEC_fire]
  refine ⟨ht, ?_⟩
  show levelToIrCmd (decideLevel s.lastSmoke s.lastTemp s.lastLevel) ≠ s.lastIrCmdSent
  rcases hinv with ⟨hon, _⟩ | heq
  · rw [hon]
    exact levelToIrCmd_ne_on _
  · rw [heq]
    exact fun hc => h (levelToIrCmd_injective _ _ hc)

/-- The state at the call of `decideLevel` satisfies `cmdInv` when the state at the start
of `loop` does. -/
theorem cmdInv_atDecide (e : Env) (w : World) (h : cmdInv w) : cmdInv (atDecide e w) := by
  obtain ⟨_, _, _, hl, hc, _, _⟩ := atDecide_fields e w
  unfold cmdInv
  rw [hl, hc]
  exact h

/-- A call of `loop` whose sample tick is `sendTimely` keeps `cmdInv`. -/
theorem cmdInv_loop (e : Env) (w : World) (hinv : cmdInv w) (ht : sendTimely e w) :
    cmdInv (loop e w) := by
  obtain ⟨hl, hc, _, _, _, _, _⟩ := loop_fields e w
  unfold cmdInv
  rw [hl, hc]
  unfold afterSample
  by_cases hdue : sampleDue e w
  · rw [if_pos hdue]
    by_cases hch : decideLevel (atDecide e w).lastSmoke (atDecide e w).lastTemp
        (atDecide e w).lastLevel = (atDecide e w).lastLevel
    · rw [sampleAct_same e _ hch]
      exact cmdInv_atDecide e w hinv
    · rw [sampleAct_change e _ (cmdInv_atDecide e w hinv) hch (ht hdue hch)]
      exact Or.inr rfl
  · rw [if_neg hdue, atSample_frame]
    exact hinv

/-- The state left by `setup` satisfies `cmdInv`: the power-on command is the last one
sent and the level is `SAFE`. -/
theorem cmdInv_setup (e0 : Env) : cmdInv (setup e0 boot) :=
  Or.inl ⟨(setup_sender e0).2.1, (setup_sender e0).2.2.2⟩

/-- Along a timely sequence of calls of `loop`, `cmdInv` is kept and the last call is
itself timely. -/
theorem cmdInv_loops (es : List Env) (e : Env) (w : World) (hinv : cmdInv w)
    (ht : timelyFrom w (es ++ [e])) :
    cmdInv (loops es w) ∧ sendTimely e (loops es w) := by
  induction es generalizing w with
  | nil => exact ⟨hinv, ht.1⟩
  | cons a es ih => exact ih (loop a w) (cmdInv_loop a w hinv ht.1) ht.2

/-- C9, as stated, fails once the clock has wrapped.  The first call of `loop` comes
4294967096 ms after `setup` returned, so its send would be made 4294967496 ms after the
power-on transmission, far more than 350 ms.  The call is a sample tick, the smoke value
1000 takes the level from `SAFE` to `DANGER`, but `millis() - lastIrSendMs` is
`800 - 600 = 200` in 32-bit arithmetic and `sendIR_NEC` returns at its first test: the
level changes and nothing is transmitted, and a further tick with the same smoke sends
nothing either, the level staying `DANGER`. -/
theorem sample_tick_silent_after_wrap :
    (run quiet []).irLog =
      [{ addr := IR_ADDR, cmd := IR_CMD_ON, startMs := 600, endMs := 600 }] ∧
    (run quiet []).lastLevel = Level.SAFE ∧
    sampleDue late (run quiet []) ∧
    (atDecide late (run quiet [])).clock = 4294968096 ∧
    600 + 350 ≤ (atDecide late (run quiet [])).clock ∧
    u32sub (millis (atDecide late (run quiet []))) (atDecide late (run quiet [])).lastIrSendMs
      = 200 ∧
    ¬ sendTimely late (run quiet []) ∧
    decideLevel (loop late (run quiet [])).lastSmoke (loop late (run quiet [])).lastTemp
      (run quiet []).lastLevel = Level.DANGER ∧
    (loop late (run quiet [])).lastLevel = Level.DANGER ∧
    (loop late (run quiet [])).irLog = (run quiet []).irLog ∧
    (run quiet [late, smoky]).lastLevel = Level.DANGER ∧
    (run quiet [late, smoky]).irLog = (run quiet []).irLog := by
  refine ⟨by decide, by decide, by decide, by decide, by decide, by decide, by decide,
    by decide, by decide, by decide, by decide, by decide⟩

/-- C9, amended.  Sample tick actuation: in a run of `setup` followed by calls of `loop`
in which every send of a sample tick comes at least 350 ms after the recorded time of
the previous transmission as the 32-bit clock measures it (the unsigned 32-bit
difference `millis() - lastIrSendMs` is at least 350), a sample tick transmits a command
iff `decideLevel (lastSmoke, lastTemp, lastLevel)` differs from `lastLevel`; `lastLevel`
becomes that new level, and the one command transmitted is `levelToIrCmd` of it. -/
theorem sample_tick_actuation (e0 : Env) (es : List Env) (e : Env)
    (htimely : timelyFrom (setup e0 boot) (es ++ [e]))
    (hdue : sampleDue e (run e0 es)) :
    (loop e (run e0 es)).lastSmoke = filtered e.adc ∧
    (loop e (run e0 es)).lastTemp =
      (if isnan e.temp = false then e.temp else (run e0 es).lastTemp) ∧
    (loop e (run e0 es)).lastLevel =
      decideLevel (loop e (run e0 es)).lastSmoke (loop e (run e0 es)).lastTemp
        (run e0 es).lastLevel ∧
    ((loop e (run e0 es)).irLog ≠ (run e0 es).irLog ↔
      (loop e (run e0 es)).lastLevel ≠ (run e0 es).lastLevel) ∧
    ((loop e (run e0 es)).lastLevel ≠ (run e0 es).lastLevel →
      (loop e (run e0 es)).irLog = (run e0 es).irLog ++
        [{ addr := IR_ADDR, cmd := levelToIrCmd (loop e (run e0 es)).lastLevel,
           startMs := (atDecide e (run e0 es)).clock,
           endMs := (atDecide e (run e0 es)).clock + e.txMs }]) ∧
    ((loop e (run e0 es)).lastLevel = (run e0 es).lastLevel →
      (loop e (run e0 es)).irLog = (run e0 es).irLog) := by
  obtain ⟨hinv, ht⟩ := cmdInv_loops es e (setup e0 boot) (cmdInv_setup e0) htimely
  change cmdInv (run e0 es) at hinv
  change sendTimely e (run e0 es) at ht
  generalize run e0 es = w at hinv ht hdue ⊢
  obtain ⟨hl, _, _, hs, htm, _, hlog⟩ := loop_fields e w
  obtain ⟨ds, dt, _, dl, _, _, dlog⟩ := atDecide_fields e w
  have haft : afterSample e w = sampleAct e (atDecide e w) := if_pos hdue
  rw [hl, hs, htm, hlog, haft]
  by_cases hch : decideLevel (atDecide e w).lastSmoke (atDecide e w).lastTemp
      (atDecide e w).lastLevel = (atDecide e w).lastLevel
  · rw [sampleAct_same e _ hch]
    rw [ds, dt, dl] at hch
    rw [ds, dt, dl, dlog, hch]
    simp
  · rw [sampleAct_change e _ (cmdInv_atDecide e w hinv) hch (ht hdue hch)]
    rw [ds, dt, dl] at hch
    dsimp only
    rw [ds, dt, dl, dlog]
    simp [hch]

/-- Scenarios 2 and 1 of the specification as first sample tick after `setup`: with smoke
1000 the level goes from `SAFE` to `DANGER` and red is transmitted; with smoke 100 and no
temperature the level stays `SAFE` and nothing is transmitted. -/
theorem sample_tick_actuation_witness :
    (timelyFrom (setup quiet boot) ([] ++ [smoky]) ∧ sampleDue smoky (run quiet []) ∧
      (loop smoky (run quiet [])).lastLevel = Level.DANGER ∧
      (loop smoky (run quiet [])).irLog = (run quiet []).irLog ++
        [{ addr := IR_ADDR, cmd := IR_CMD_RED, startMs := 3000, endMs := 3000 }]) ∧
    (timelyFrom (setup quiet boot) ([] ++ [clean]) ∧ sampleDue clean (run quiet []) ∧
      (loop clean (run quiet [])).lastLevel = Level.SAFE ∧
      (loop clean (run quiet [])).irLog = (run quiet []).irLog) := by
  have hs := sample_tick_actuation quiet [] smoky ⟨by decide, trivial⟩ (by decide)
  have hc := sample_tick_actuation quiet [] clean ⟨by decide, trivial⟩ (by decide)
  have hs3 : (loop smoky (run quiet [])).lastLevel = Level.DANGER := by
    rw [hs.2.2.1, hs.1, hs.2.1]
    decide
  have hc3 : (loop clean (run quiet [])).lastLevel = Level.SAFE := by
    rw [hc.2.2.1, hc.1, hc.2.1]
    decide
  refine ⟨⟨⟨by decide, trivial⟩, by decide, hs3, ?_⟩, ⟨⟨by decide, trivial⟩, by decide, hc3, ?_⟩⟩
  · have h := hs.2.2.2.2.1 (by rw [hs3]; decide)
    rw [hs3] at h
    exact h
  · exact hc.2.2.2.2.2 (by rw [hc3]; decide)

/-! ## Retained sensor values -/

/-- The second half of branch B stores `decideLevel` of the current readings as the level
and leaves the readings alone. -/
theorem sampleAct_fields (e : Env) (s : World) :
    (sampleAct e s).lastLevel = decideLevel s.lastSmoke s.lastTemp s.lastLevel ∧
    (sampleAct e s).lastSmoke = s.lastSmoke ∧
    (sampleAct e s).lastTemp = s.lastTemp ∧
    (sampleAct e s).lastHum = s.lastHum := by
  by_cases hch : decideLevel s.lastSmoke s.lastTemp s.lastLevel = s.lastLevel
  · rw [sampleAct_same e s hch]
    exact ⟨hch.symm, rfl, rfl, rfl⟩
  · unfold sampleAct
    dsimp only
    rw [if_pos hch]
    by_cases hp : 350 ≤ u32sub
        (millis { s with lastLevel := decideLevel s.lastSmoke s.lastTemp s.lastLevel })
        s.lastIrSendMs ∧
        levelToIrCmd (decideLevel s.lastSmoke s.lastTemp s.lastLevel) ≠ s.lastIrCmdSent
    · rw [sendIR_NEC_fire _ _ _ _ hp]
      exact ⟨rfl, rfl, rfl, rfl⟩
    · rw [sendIR_NEC_skip _ _ _ _ hp]
      exact ⟨rfl, rfl, rfl, rfl⟩

/-- The readings and the level after one call of `loop`, by whether it was a sample
tick. -/
theorem loop_readings (e : Env) (w : World) :
    (sampleDue e w →
      (loop e w).lastSmoke = filtered e.adc ∧
      (loop e w).lastTemp = (if isnan e.temp = false then e.temp else w.lastTemp) ∧
      (loop e w).lastHum = (if isnan e.hum = false then e.hum else w.lastHum) ∧
      (loop e w).lastLevel =
        decideLevel (filtered e.adc) (if isnan e.temp = false then e.temp else w.lastTemp)
          w.lastLevel) ∧
    (¬ sampleDue e w →
      (loop e w).lastSmoke = w.lastSmoke ∧ (loop e w).lastTemp = w.lastTemp ∧
      (loop e w).lastHum = w.lastHum ∧ (loop e w).lastLevel = w.lastLevel) := by
  obtain ⟨hl, _, _, hs, htm, hh, _⟩ := loop_fields e w
  rw [hl, hs, htm, hh]
  constructor
  · intro hdue
    have haft : afterSample e w = sampleAct e (atDecide e w) := if_pos hdue
    obtain ⟨a1, a2, a3, a4⟩ := sampleAct_fields e (atDecide e w)
    obtain ⟨ds, dt, dh, dl, _, _, _⟩ := atDecide_fields e w
    rw [haft, a1, a2, a3, a4, ds, dt, dh, dl]
    exact ⟨rfl, rfl, rfl, rfl⟩
  · intro hdue
    have haft : afterSample e w = atSample e w := if_neg hdue
    rw [haft, atSample_frame]
    exact ⟨rfl, rfl, rfl, rfl⟩

/-- While every DHT read fails, calls of `loop` leave `lastTemp` and `lastHum` alone. -/
theorem loops_retain (es : List Env) (w : World)
    (hfail : ∀ e ∈ es, isnan e.temp = true ∧ isnan e.hum = true) :
    (loops es w).lastTemp = w.lastTemp ∧ (loops es w).lastHum = w.lastHum := by
  induction es generalizing w with
  | nil => exact ⟨rfl, rfl⟩
  | cons a es ih =>
      have ha := hfail a (List.mem_cons_self a es)
      have hstep : (loop a w).lastTemp = w.lastTemp ∧ (loop a w).lastHum = w.lastHum := by
        by_cases hdue : sampleDue a w
        · obtain ⟨_, h2, h3, _⟩ := (loop_readings a w).1 hdue
          rw [h2, h3, ha.1, ha.2]
          exact ⟨rfl, rfl⟩
        · obtain ⟨_, h2, h3, _⟩ := (loop_readings a w).2 hdue
          exact ⟨h2, h3⟩
      obtain ⟨i1, i2⟩ := ih (loop a w) (fun e he => hfail e (List.mem_cons_of_mem a he))
      show (loops es (loop a w)).lastTemp = w.lastTemp ∧ (loops es (loop a w)).lastHum = w.lastHum
      rw [i1, i2]
      exact hstep

/-- C10. Retention of sensor values: a call of `loop` overwrites `lastTemp` only in a
sample tick whose temperature read is not NaN, and `lastHum` only in one whose humidity
read is not NaN; otherwise the retained value is unchanged.  Hence over any sequence of
calls whose DHT reads all fail, `lastTemp` and `lastHum` end equal to their initial
values, and the level after each sample tick is `decideLevel` of that tick's filtered
smoke, the retained temperature and the previous level. -/
theorem retention_of_sensor_values :
    (∀ (e : Env) (w : World),
      (loop e w).lastTemp =
        (if sampleDue e w ∧ isnan e.temp = false then e.temp else w.lastTemp) ∧
      (loop e w).lastHum =
        (if sampleDue e w ∧ isnan e.hum = false then e.hum else w.lastHum)) ∧
    (∀ (es : List Env) (w : World),
      (∀ e ∈ es, isnan e.temp = true ∧ isnan e.hum = true) →
      (loops es w).lastTemp = w.lastTemp ∧ (loops es w).lastHum = w.lastHum ∧
      ∀ (pre : List Env) (e : Env) (post : List Env), es = pre ++ e :: post →
        sampleDue e (loops pre w) →
        (loop e (loops pre w)).lastSmoke = filtered e.adc ∧
        (loop e (loops pre w)).lastLevel =
          decideLevel (filtered e.adc) w.lastTemp (loops pre w).lastLevel) := by
  constructor
  · intro e w
    by_cases hdue : sampleDue e w
    · obtain ⟨_, h2, h3, _⟩ := (loop_readings e w).1 hdue
      rw [h2, h3]
      by_cases ht : isnan e.temp = false <;> by_cases hh : isnan e.hum = false <;>
        simp [hdue, ht, hh]
    · obtain ⟨_, h2, h3, _⟩ := (loop_readings e w).2 hdue
      rw [h2, h3]
      simp [hdue]
  · intro es w hfail
    obtain ⟨r1, r2⟩ := loops_retain es w hfail
    refine ⟨r1, r2, ?_⟩
    intro pre e post hsplit hdue
    have hpre : ∀ a ∈ pre, isnan a.temp = true ∧ isnan a.hum = true := by
      intro a ha
      exact hfail a (by rw [hsplit]; exact List.mem_append_left _ ha)
    have he : isnan e.temp = true ∧ isnan e.hum = true :=
      hfail e (by rw [hsplit]; exact List.mem_append_right _ (List.mem_cons_self _ _))
    obtain ⟨p1, _⟩ := loops_retain pre w hpre
    obtain ⟨h1, _, _, h4⟩ := (loop_readings e (loops pre w)).1 hdue
    rw [h1, h4, he.1, p1]
    exact ⟨rfl, rfl⟩

/-- After a tick that read 25 degrees and 40 percent, two ticks whose DHT reads fail
keep both values; the first (smoke 1000) gives `DANGER`, the second (smoke 100) gives
`WARN`, each computed with the retained temperature. -/
theorem retention_of_sensor_values_witness :
    (run quiet [warm]).lastTemp = Flt.fin 25 ∧ (run quiet [warm]).lastHum = Flt.fin 40 ∧
    (∀ e ∈ [smoky, clean], isnan e.temp = true ∧ isnan e.hum = true) ∧
    (loops [smoky, clean] (run quiet [warm])).lastTemp = Flt.fin 25 ∧
    (loops [smoky, clean] (run quiet [warm])).lastHum = Flt.fin 40 ∧
    sampleDue clean (loops [smoky] (run quiet [warm])) ∧
    (loop clean (loops [smoky] (run quiet [warm]))).lastLevel =
      decideLevel (filtered clean.adc) (Flt.fin 25) Level.DANGER ∧
    decideLevel (filtered clean.adc) (Flt.fin 25) Level.DANGER = Level.WARN := by
  have hfail : ∀ e ∈ [smoky, clean], isnan e.temp = true ∧ isnan e.hum = true := by
    intro e he
    simp only [List.mem_cons, List.mem_singleton, List.not_mem_nil, or_false] at he
    rcases he with rfl | rfl <;> exact ⟨rfl, rfl⟩
  have h := retention_of_sensor_values.2 [smoky, clean] (run quiet [warm]) hfail
  have ht : (run quiet [warm]).lastTemp = Flt.fin 25 := by decide
  have hh : (run quiet [warm]).lastHum = Flt.fin 40 := by decide
  have hdue : sampleDue clean (loops [smoky] (run quiet [warm])) := by decide
  have hlev : (loops [smoky] (run quiet [warm])).lastLevel = Level.DANGER := by decide
  refine ⟨ht, hh, hfail, h.1.trans ht, h.2.1.trans hh, hdue, ?_, by decide⟩
  have h3 := (h.2.2 [smoky] clean [] rfl hdue).2
  rw [ht, hlev] at h3
  exact h3

/-! ## The classifier as a state machine -/

/-- When the override test passes the result is `DANGER`. -/
theorem decideLevel_hot (s : Int) (t : Flt) (c : Level)
    (h : (!(isnan t) && Flt.ge t TEMP_DANGER) = true) :
    decideLevel s t c = Level.DANGER := by
  unfold decideLevel
  rw [if_pos h]

/-- When the override test fails the temperature plays no part. -/
theorem decideLevel_cold (s : Int) (t : Flt) (c : Level)
    (h : ¬ (!(isnan t) && Flt.ge t TEMP_DANGER) = true) :
    decideLevel s t c = decideLevel s Flt.nan c := by
  unfold decideLevel
  rw [if_neg h]
  symm
  apply if_neg
  decide

/-- The classifier without a temperature, as a table of thresholds. -/
theorem decideLevel_nan (s : Int) (c : Level) :
    decideLevel s Flt.nan c =
      match c with
      | Level.SAFE =>
          if 720 ≤ s then Level.DANGER else if 320 ≤ s then Level.WARN else Level.SAFE
      | Level.WARN =>
          if 720 ≤ s then Level.DANGER else if s < 280 then Level.SAFE else Level.WARN
      | Level.DANGER => if s < 680 then Level.WARN else Level.DANGER := by
  cases c <;> simp [decideLevel, isnan, SMOKE_WARN_MAX, SMOKE_SAFE_MAX, HYST]

/-- C16. Monotonicity of the classifier: with `SAFE < WARN < DANGER`, for every fixed
temperature, `s1 <= s2` and `c1 <= c2` imply
`decideLevel s1 t c1 <= decideLevel s2 t c2`. -/
theorem decideLevel_monotone (t : Flt) (s1 s2 : Int) (c1 c2 : Level)
    (hs : s1 ≤ s2) (hc : c1.rank ≤ c2.rank) :
    (decideLevel s1 t c1).rank ≤ (decideLevel s2 t c2).rank := by
  by_cases h : (!(isnan t) && Flt.ge t TEMP_DANGER) = true
  · rw [decideLevel_hot s1 t c1 h, decideLevel_hot s2 t c2 h]
  · rw [decideLevel_cold s1 t c1 h, decideLevel_cold s2 t c2 h, decideLevel_nan, decideLevel_nan]
    cases c1 <;> cases c2 <;> simp only [Level.rank] at hc ⊢ <;>
      first
        | omega
        | (split_ifs <;> simp only [Level.rank] <;> omega)

/-- Monotonicity at work without a temperature: smoke 300 from `SAFE` gives `SAFE`, smoke
700 from `DANGER` gives `DANGER`. -/
theorem decideLevel_monotone_witness :
    (300 : Int) ≤ 700 ∧ Level.SAFE.rank ≤ Level.DANGER.rank ∧
    decideLevel 300 Flt.nan Level.SAFE = Level.SAFE ∧
    decideLevel 700 Flt.nan Level.DANGER = Level.DANGER ∧
    (decideLevel 300 Flt.nan Level.SAFE).rank ≤ (decideLevel 700 Flt.nan Level.DANGER).rank :=
  ⟨by decide, by decide, by decide, by decide,
    decideLevel_monotone Flt.nan 300 700 Level.SAFE Level.DANGER (by decide) (by decide)⟩

/-- C17. Stabilisation under constant input: with `f x = decideLevel s t x`,
`f (f (f c)) = f (f c)` for every smoke, temperature and level, and two evaluations are
needed for `c = DANGER`, `s = 100` and no temperature, where `f (f c)` differs from
`f c`. -/
theorem decideLevel_stabilises :
    (∀ (s : Int) (t : Flt) (c : Level),
      decideLevel s t (decideLevel s t (decideLevel s t c)) =
        decideLevel s t (decideLevel s t c)) ∧
    decideLevel 100 Flt.nan (decideLevel 100 Flt.nan Level.DANGER) ≠
      decideLevel 100 Flt.nan Level.DANGER := by
  refine ⟨?_, by decide⟩
  intro s t c
  by_cases h : (!(isnan t) && Flt.ge t TEMP_DANGER) = true
  · rw [decideLevel_hot s t _ h, decideLevel_hot s t _ h]
  · simp only [decideLevel_cold s t _ h]
    by_cases h1 : 720 ≤ s <;> by_cases h2 : 320 ≤ s <;> by_cases h3 : s < 280 <;>
      by_cases h4 : s < 680 <;> cases c <;> simp [decideLevel_nan, h1, h2, h3, h4] <;> omega

/-- One classification with the smoke in the band around `T` and a calm temperature: a
settled level is kept, and the result is settled whatever the level was. -/
theorem band_step (T : Int) (hT : T = SMOKE_SAFE_MAX ∨ T = SMOKE_WARN_MAX) (s : Int)
    (t : Flt) (c : Level) (hlo : T - HYST ≤ s) (hhi : s < T + HYST) (ht : tempCalm t) :
    (settled T c → decideLevel s t c = c) ∧ settled T (decideLevel s t c) := by
  have hcold : ¬ (!(isnan t) && Flt.ge t TEMP_DANGER) = true := by
    rw [override_off_of_calm t ht]
    decide
  rw [decideLevel_cold s t c hcold, decideLevel_nan]
  unfold settled
  rcases hT with rfl | rfl <;> simp only [SMOKE_SAFE_MAX, SMOKE_WARN_MAX, HYST] at hlo hhi ⊢ <;>
    cases c <;> simp <;> (try split_ifs) <;> (try simp) <;> omega

/-- From a settled level, readings in the band cause no change at all. -/
theorem changes_settled (T : Int) (hT : T = SMOKE_SAFE_MAX ∨ T = SMOKE_WARN_MAX)
    (rs : List (Int × Flt)) (c : Level) (hc : settled T c)
    (hband : ∀ r ∈ rs, T - HYST ≤ r.1 ∧ r.1 < T + HYST ∧ tempCalm r.2) :
    changes c (classify c rs) = 0 := by
  induction rs generalizing c with
  | nil => rfl
  | cons r rs ih =>
      obtain ⟨hlo, hhi, ht⟩ := hband r (List.mem_cons_self r rs)
      have hkeep := (band_step T hT r.1 r.2 c hlo hhi ht).1 hc
      simp only [classify, changes, hkeep, if_true, Nat.zero_add]
      exact ih c hc (fun x hx => hband x (List.mem_cons_of_mem r hx))

/-- C15. No chatter inside a hysteresis band: for `T` one of `SMOKE_SAFE_MAX` (300) and
`SMOKE_WARN_MAX` (700), every starting level and every finite sequence of readings whose
smoke lies in `[T - HYST, T + HYST)` and whose temperature is missing or below 55,
iterating `decideLevel` changes the level at most once, and not at all when the starting
level is `WARN`. -/
theorem no_chatter_in_band (T : Int) (hT : T = SMOKE_SAFE_MAX ∨ T = SMOKE_WARN_MAX)
    (c : Level) (rs : List (Int × Flt))
    (hband : ∀ r ∈ rs, T - HYST ≤ r.1 ∧ r.1 < T + HYST ∧ tempCalm r.2) :
    changes c (classify c rs) ≤ 1 ∧
    (c = Level.WARN → changes c (classify c rs) = 0) := by
  constructor
  · cases rs with
    | nil => exact Nat.zero_le 1
    | cons r rs =>
        obtain ⟨hlo, hhi, ht⟩ := hband r (List.mem_cons_self r rs)
        have hset := (band_step T hT r.1 r.2 c hlo hhi ht).2
        have hrest := changes_settled T hT rs (decideLevel r.1 r.2 c) hset
          (fun x hx => hband x (List.mem_cons_of_mem r hx))
        simp only [classify, changes, hrest]
        split_ifs <;> omega
  · intro hw
    subst hw
    refine changes_settled T hT rs Level.WARN ?_ hband
    exact ⟨fun _ => by decide, fun _ => by decide⟩

/-- Around 300 from `DANGER`: the readings 290, 310, 285, 319 give `WARN` four times, one
change; around 700 from `WARN`: the readings 719, 680, 700 cause no change. -/
theorem no_chatter_in_band_witness :
    (∀ r ∈ [((290 : Int), Flt.nan), (310, Flt.fin 20), (285, Flt.nan), (319, Flt.nan)],
      SMOKE_SAFE_MAX - HYST ≤ r.1 ∧ r.1 < SMOKE_SAFE_MAX + HYST ∧ tempCalm r.2) ∧
    classify Level.DANGER [(290, Flt.nan), (310, Flt.fin 20), (285, Flt.nan), (319, Flt.nan)]
      = [Level.WARN, Level.WARN, Level.WARN, Level.WARN] ∧
    changes Level.DANGER
      (classify Level.DANGER [(290, Flt.nan), (310, Flt.fin 20), (285, Flt.nan), (319, Flt.nan)])
      ≤ 1 ∧
    changes Level.WARN (classify Level.WARN [(719, Flt.nan), (680, Flt.nan), (700, Flt.nan)])
      = 0 :=
  ⟨by decide, by decide,
    (no_chatter_in_band SMOKE_SAFE_MAX (Or.inl rfl) Level.DANGER
      [(290, Flt.nan), (310, Flt.fin 20), (285, Flt.nan), (319, Flt.nan)] (by decide)).1,
    (no_chatter_in_band SMOKE_WARN_MAX (Or.inr rfl) Level.WARN
      [(719, Flt.nan), (680, Flt.nan), (700, Flt.nan)] (by decide)).2 rfl⟩

/-! ## The scheduler -/

/-- The second half of branch B changes nothing but the level, the sender's two
variables, the clock and the IR log. -/
theorem sampleAct_frame (e : Env) (s : World) :
    sampleAct e s =
      { s with
        lastLevel := (sampleAct e s).lastLevel,
        lastIrCmdSent := (sampleAct e s).lastIrCmdSent,
        lastIrSendMs := (sampleAct e s).lastIrSendMs,
        clock := (sampleAct e s).clock,
        irLog := (sampleAct e s).irLog } := by
  have h : ∃ l c m k g, sampleAct e s =
      { s with lastLevel := l, lastIrCmdSent := c, lastIrSendMs := m, clock := k,
               irLog := g } := by
    by_cases hch : decideLevel s.lastSmoke s.lastTemp s.lastLevel = s.lastLevel
    · rw [sampleAct_same e s hch]
      exact ⟨_, _, _, _, _, rfl⟩
    · unfold sampleAct
      dsimp only
      rw [if_pos hch]
      by_cases hp : 350 ≤ u32sub
          (millis { s with lastLevel := decideLevel s.lastSmoke s.lastTemp s.lastLevel })
          s.lastIrSendMs ∧
          levelToIrCmd (decideLevel s.lastSmoke s.lastTemp s.lastLevel) ≠ s.lastIrCmdSent
      · rw [sendIR_NEC_fire _ _ _ _ hp]
        exact ⟨_, _, _, _, _, rfl⟩
      · rw [sendIR_NEC_skip _ _ _ _ hp]
        exact ⟨_, _, _, _, _, rfl⟩
  obtain ⟨l, c, m, k, g, hc⟩ := h
  rw [hc]

/-- On reaching branch B, `tLastWifi` is the clock value read by `loop` if branch A ran
and is unchanged otherwise. -/
theorem atSample_tLastWifi (e : Env) (w : World) :
    (atSample e w).tLastWifi =
      (if wifiDue e w then millis (delay e.idle w) else w.tLastWifi) := by
  unfold atSample wifiDue
  dsimp only
  by_cases h : u32sub (millis (delay e.idle w)) (delay e.idle w).tLastWifi ≥ WIFI_CHECK_MS
  · rw [if_pos h, if_pos h, wifiTask_frame]
  · rw [if_neg h, if_neg h]
    rfl

/-- The scheduling variables and the report logs on reaching branch C. -/
theorem afterSample_sched (e : Env) (w : World) :
    (afterSample e w).tLastWifi =
      (if wifiDue e w then millis (delay e.idle w) else w.tLastWifi) ∧
    (afterSample e w).tLastSensor =
      (if sampleDue e w then millis (delay e.idle w) else w.tLastSensor) ∧
    (afterSample e w).tLastPost = w.tLastPost ∧
    (afterSample e w).postLog = w.postLog ∧
    (afterSample e w).httpLog = w.httpLog := by
  have hA := atSample_frame e w
  have hW := atSample_tLastWifi e w
  unfold afterSample
  by_cases hdue : sampleDue e w
  · simp only [if_pos hdue]
    rw [sampleAct_frame]
    unfold atDecide
    rw [sampleRead_eq]
    dsimp only
    rw [hW, hA]
    exact ⟨rfl, rfl, rfl, rfl, rfl⟩
  · simp only [if_neg hdue]
    rw [hW, hA]
    exact ⟨rfl, rfl, rfl, rfl, rfl⟩

/-- Whether a call of `loop` is a sample tick depends on the clock and `tLastSensor`
alone. -/
theorem sampleDue_iff (e : Env) (w : World) :
    sampleDue e w ↔ SENSOR_PERIOD_MS ≤ u32sub (millis (delay e.idle w)) w.tLastSensor := by
  have hA := atSample_frame e w
  unfold sampleDue
  rw [hA]

/-- Whether a call of `loop` is a report tick depends on the clock and `tLastPost`
alone. -/
theorem reportDue_iff (e : Env) (w : World) :
    reportDue e w ↔ POST_PERIOD_MS ≤ u32sub (millis (delay e.idle w)) w.tLastPost := by
  unfold reportDue
  rw [(afterSample_sched e w).2.2.1]

/-- The call `postToServer` logs its three arguments, whatever happens next. -/
theorem postToServer_postLog (e : Env) (smoke : Int) (temp hum : Flt) (w : World) :
    (postToServer e smoke temp hum w).postLog =
      w.postLog ++ [{ smoke := smoke, temp := temp, hum := hum }] := by
  unfold postToServer
  dsimp only
  by_cases h1 : e.wifi w.clock = false
  · rw [if_pos h1]
  · rw [if_neg h1]
    by_cases h2 : e.httpBegin = false
    · rw [if_pos h2]
    · rw [if_neg h2]

/-- The report variables after one call of `loop`. -/
theorem loop_report (e : Env) (w : World) :
    (loop e w).tLastPost = (if reportDue e w then millis (delay e.idle w) else w.tLastPost) ∧
    (loop e w).postLog =
      (if reportDue e w then
        w.postLog ++
          [{ smoke := (loop e w).lastSmoke,
             temp := if isnan (loop e w).lastTemp = true then Flt.fin 0
                     else (loop e w).lastTemp,
             hum := if isnan (loop e w).lastHum = true then Flt.fin 0
                    else (loop e w).lastHum }]
       else w.postLog) ∧
    (loop e w).tLastWifi = (afterSample e w).tLastWifi ∧
    (loop e w).tLastSensor = (afterSample e w).tLastSensor := by
  obtain ⟨_, _, _, hs, ht, hh, _⟩ := loop_fields e w
  obtain ⟨_, _, hp, hl, _⟩ := afterSample_sched e w
  rw [hs, ht, hh]
  rw [loop_eq]
  by_cases h : reportDue e w
  · have h2 : u32sub (millis (delay e.idle w)) (afterSample e w).tLastPost ≥ POST_PERIOD_MS := h
    rw [if_pos h2, if_pos h, if_pos h]
    have hlog : (reportTask e (millis (delay e.idle w)) (afterSample e w)).postLog = _ :=
      postToServer_postLog e _ _ _ _
    rw [hlog, reportTask_frame]
    dsimp only
    rw [hl]
    exact ⟨rfl, rfl, rfl, rfl⟩
  · have h2 : ¬ u32sub (millis (delay e.idle w)) (afterSample e w).tLastPost ≥ POST_PERIOD_MS := h
    rw [if_neg h2, if_neg h, if_neg h]
    exact ⟨hp, hl, rfl, rfl⟩

/-- C11. Scheduler firing rule: one call of `loop` reads the clock once as `now` and runs
the connectivity, sample and report branches in that order, each iff
`now - lastRun >= period` for its own `lastRun` (periods 12000, 2000 and 10000); a branch
that runs sets its `lastRun` to `now`, one that does not leaves it unchanged.  A report
sent in the same call as a sample carries the smoke value of that sample. -/
theorem scheduler_firing_rule (e : Env) (w : World) :
    loop e w =
      (let w0 := delay e.idle w
       let now := millis w0
       let wa := if wifiDue e w then wifiTask e now w0 else w0
       let wb := if sampleDue e w then sampleTask e now wa else wa
       if reportDue e w then reportTask e now wb else wb) ∧
    (wifiDue e w ↔ WIFI_CHECK_MS ≤ u32sub (millis (delay e.idle w)) w.tLastWifi) ∧
    (sampleDue e w ↔ SENSOR_PERIOD_MS ≤ u32sub (millis (delay e.idle w)) w.tLastSensor) ∧
    (reportDue e w ↔ POST_PERIOD_MS ≤ u32sub (millis (delay e.idle w)) w.tLastPost) ∧
    WIFI_CHECK_MS = 12000 ∧ SENSOR_PERIOD_MS = 2000 ∧ POST_PERIOD_MS = 10000 ∧
    (loop e w).tLastWifi = (if wifiDue e w then millis (delay e.idle w) else w.tLastWifi) ∧
    (loop e w).tLastSensor =
      (if sampleDue e w then millis (delay e.idle w) else w.tLastSensor) ∧
    (loop e w).tLastPost = (if reportDue e w then millis (delay e.idle w) else w.tLastPost) ∧
    (loop e w).lastSmoke = (if sampleDue e w then filtered e.adc else w.lastSmoke) ∧
    (loop e w).postLog =
      (if reportDue e w then
        w.postLog ++
          [{ smoke := (loop e w).lastSmoke,
             temp := if isnan (loop e w).lastTemp = true then Flt.fin 0
                     else (loop e w).lastTemp,
             hum := if isnan (loop e w).lastHum = true then Flt.fin 0
                    else (loop e w).lastHum }]
       else w.postLog) ∧
    (sampleDue e w → reportDue e w →
      (loop e w).postLog.getLast?.map Report.smoke = some (filtered e.adc)) := by
  obtain ⟨r1, r2, r3, r4⟩ := loop_report e w
  obtain ⟨a1, a2, _, _, _⟩ := afterSample_sched e w
  have hsm : (loop e w).lastSmoke = (if sampleDue e w then filtered e.adc else w.lastSmoke) := by
    by_cases hdue : sampleDue e w
    · rw [if_pos hdue]
      exact ((loop_readings e w).1 hdue).1
    · rw [if_neg hdue]
      exact ((loop_readings e w).2 hdue).1
  refine ⟨rfl, Iff.rfl, sampleDue_iff e w, reportDue_iff e w, rfl, rfl, rfl,
    r3.trans a1, r4.trans a2, r1, hsm, r2, ?_⟩
  intro hs hr
  rw [r2, if_pos hr, hsm, if_pos hs]
  simp

/-- The first call of `loop` 10000 ms after `setup`, in the quiet environment with
smoke 500: it is a sample tick and a report tick but not a connectivity tick, and the
report carries the smoke value 500 just sampled, with 0 for the missing DHT values. -/
theorem scheduler_firing_rule_witness :
    ¬ wifiDue tenSeconds (run quiet []) ∧ sampleDue tenSeconds (run quiet []) ∧
    reportDue tenSeconds (run quiet []) ∧
    (run quiet []).tLastWifi = 900 ∧
    (loop tenSeconds (run quiet [])).tLastWifi = 900 ∧
    (loop tenSeconds (run quiet [])).tLastSensor = 10900 ∧
    (loop tenSeconds (run quiet [])).tLastPost = 10900 ∧
    (loop tenSeconds (run quiet [])).postLog =
      [{ smoke := 500, temp := Flt.fin 0, hum := Flt.fin 0 }] ∧
    (loop tenSeconds (run quiet [])).postLog.getLast?.map Report.smoke
      = some (filtered tenSeconds.adc) :=
  ⟨by decide, by decide, by decide, by decide, by decide, by decide, by decide, by decide,
    (scheduler_firing_rule tenSeconds (run quiet [])).2.2.2.2.2.2.2.2.2.2.2.2
      (by decide) (by decide)⟩

/-! ## Clock rollover -/

/-- The 32-bit difference recovers an elapsed time below `2^32`. -/
theorem u32sub_elapsed (last el : Nat) (_hl : last < U32) (he : el < U32) :
    u32sub ((last + el) % U32) last = el := by
  unfold u32sub U32 at *
  omega

/-- C19. Clock rollover: for a 32-bit `last` and a true elapsed time `el < 2^32`, with
`now = (last + el) mod 2^32`, the 32-bit difference `now - last` is `el`, also when
`now < last`.  Hence each branch of `loop` runs iff `el` is at least its period, and a
call of `sendIR_NEC` with a new command transmits iff `el >= 350`. -/
theorem clock_rollover (last el : Nat) (hl : last < U32) (he : el < U32) :
    u32sub ((last + el) % U32) last = el ∧
    (∀ (e : Env) (w : World), millis (delay e.idle w) = (last + el) % U32 →
      (w.tLastWifi = last → (wifiDue e w ↔ WIFI_CHECK_MS ≤ el)) ∧
      (w.tLastSensor = last → (sampleDue e w ↔ SENSOR_PERIOD_MS ≤ el)) ∧
      (w.tLastPost = last → (reportDue e w ↔ POST_PERIOD_MS ≤ el))) ∧
    (∀ (txMs addr cmd : Nat) (w : World), millis w = (last + el) % U32 →
      w.lastIrSendMs = last → cmd ≠ w.lastIrCmdSent →
      ((sendIR_NEC txMs addr cmd w).irLog ≠ w.irLog ↔ 350 ≤ el)) := by
  have hd := u32sub_elapsed last el hl he
  refine ⟨hd, ?_, ?_⟩
  · intro e w hnow
    refine ⟨?_, ?_, ?_⟩
    · intro h
      have hw : wifiDue e w ↔ WIFI_CHECK_MS ≤ u32sub (millis (delay e.idle w)) w.tLastWifi :=
        Iff.rfl
      rw [hw, hnow, h, hd]
    · intro h
      rw [sampleDue_iff, hnow, h, hd]
    · intro h
      rw [reportDue_iff, hnow, h, hd]
  · intro txMs addr cmd w hnow hlast hcmd
    rw [sendIR_NEC_sent_iff, hnow, hlast, hd]
    exact ⟨fun h => h.1, fun h => ⟨h, hcmd⟩⟩

/-- Across the wrap: `last` is 100 ms before the rollover and 500 ms elapse, so `now` is
400, numerically below `last`, and the difference is still 500; a green command sent in
that state is transmitted. -/
theorem clock_rollover_witness :
    4294967196 < U32 ∧ 500 < U32 ∧ (4294967196 + 500) % U32 = 400 ∧
    u32sub ((4294967196 + 500) % U32) 4294967196 = 500 ∧
    (sendIR_NEC 0 IR_ADDR IR_CMD_GREEN
        { boot with clock := 4294967696, lastIrSendMs := 4294967196,
                    lastIrCmdSent := IR_CMD_ON }).irLog ≠ [] :=
  ⟨by decide, by decide, by decide,
    (clock_rollover 4294967196 500 (by decide) (by decide)).1,
    ((clock_rollover 4294967196 500 (by decide) (by decide)).2.2 0 IR_ADDR IR_CMD_GREEN
      { boot with clock := 4294967696, lastIrSendMs := 4294967196,
                  lastIrCmdSent := IR_CMD_ON } (by decide) rfl (by decide)).2 (by decide)⟩

/-! ## Facts about whole runs -/

/-- The readings `setup` leaves behind are the initial ones: it never touches them. -/
theorem setup_readings (e : Env) :
    (setup e boot).lastSmoke = 0 ∧ (setup e boot).lastTemp = Flt.nan ∧
    (setup e boot).lastHum = Flt.nan := by
  have h1 : sendIR_NEC e.txMs IR_ADDR IR_CMD_ON (delay 600 boot) = _ :=
    sendIR_NEC_fire e.txMs IR_ADDR IR_CMD_ON (delay 600 boot) (by decide)
  have h2 : ∀ w : World, w.lastIrSendMs = (600 + e.txMs) % U32 → w.clock = 600 + e.txMs + 300 →
      sendIR_NEC e.txMs IR_ADDR IR_CMD_GREEN w = w := by
    intro w hs hc
    apply sendIR_NEC_skip
    intro hp
    have := hp.1
    rw [millis, hs, hc, u32sub_wrapped _ _ (by omega)] at this
    unfold U32 at this
    omega
  unfold setup
  simp only [h1]
  rw [h2 _ rfl rfl, connectWiFi_frame]
  exact ⟨rfl, rfl, rfl⟩

/-- Calls of `loop` for two lists in a row. -/
theorem loops_append (es es' : List Env) (w : World) :
    loops (es ++ es') w = loops es' (loops es w) := by
  induction es generalizing w with
  | nil => rfl
  | cons a es ih => exact ih (loop a w)

/-- A property of every position of `a :: es` is a property of `a` and of every position
of `es`. -/
theorem forall_split_cons (a : Env) (es : List Env) (P : List Env → Env → Prop) :
    (∀ pre e post, a :: es = pre ++ e :: post → P pre e) ↔
      (P [] a ∧ ∀ pre e post, es = pre ++ e :: post → P (a :: pre) e) := by
  constructor
  · intro h
    exact ⟨h [] a es rfl, fun pre e post hs => h (a :: pre) e post (by rw [hs]; rfl)⟩
  · rintro ⟨h0, h1⟩ pre e post hs
    cases pre with
    | nil =>
        simp only [List.nil_append, List.cons.injEq] at hs
        rw [← hs.1]
        exact h0
    | cons b pre =>
        simp only [List.cons_append, List.cons.injEq] at hs
        rw [← hs.1]
        exact h1 pre e post hs.2

/-- A retained reading that each call of `loop` overwrites only with a valid fresh value
is NaN after a sequence of calls iff it was NaN before and no sample tick of the sequence
read a valid value. -/
theorem loops_nan_iff (get : World → Flt) (rd : Env → Flt)
    (hstep : ∀ e w, get (loop e w) =
      if sampleDue e w ∧ isnan (rd e) = false then rd e else get w)
    (es : List Env) (w : World) :
    isnan (get (loops es w)) = true ↔
      (isnan (get w) = true ∧
        ∀ pre e post, es = pre ++ e :: post → sampleDue e (loops pre w) →
          isnan (rd e) = true) := by
  induction es generalizing w with
  | nil =>
      constructor
      · intro h
        refine ⟨h, fun pre e post hs => ?_⟩
        simp at hs
      · exact fun h => h.1
  | cons a es ih =>
      have hone : isnan (get (loop a w)) = true ↔
          (isnan (get w) = true ∧ (sampleDue a w → isnan (rd a) = true)) := by
        rw [hstep a w]
        by_cases hd : sampleDue a w
        · by_cases hv : isnan (rd a) = false
          · rw [if_pos ⟨hd, hv⟩]
            simp [hv, hd]
          · rw [if_neg (fun h => hv h.2)]
            simp at hv
            simp [hv]
        · rw [if_neg (fun h => hd h.1)]
          simp [hd]
      rw [forall_split_cons a es (fun pre e => sampleDue e (loops pre w) → isnan (rd e) = true)]
      show isnan (get (loops es (loop a w))) = true ↔ _
      rw [ih (loop a w), hone]
      constructor
      · rintro ⟨⟨h1, h2⟩, h3⟩
        exact ⟨h1, h2, h3⟩
      · rintro ⟨h1, h2, h3⟩
        exact ⟨⟨h1, h2⟩, h3⟩

/-- The retained temperature and humidity after one call of `loop`. -/
theorem loop_retained (e : Env) (w : World) :
    (loop e w).lastTemp =
      (if sampleDue e w ∧ isnan e.temp = false then e.temp else w.lastTemp) ∧
    (loop e w).lastHum =
      (if sampleDue e w ∧ isnan e.hum = false then e.hum else w.lastHum) := by
  by_cases hdue : sampleDue e w
  · obtain ⟨_, h2, h3, _⟩ := (loop_readings e w).1 hdue
    rw [h2, h3]
    by_cases ht : isnan e.temp = false <;> by_cases hh : isnan e.hum = false <;>
      simp [hdue, ht, hh]
  · obtain ⟨_, h2, h3, _⟩ := (loop_readings e w).2 hdue
    rw [h2, h3]
    simp [hdue]

/-- C12. Report payload sentinel: a report tick calls `postToServer` with `lastSmoke`,
with the retained temperature if it is valid and 0.0 otherwise, and likewise for the
humidity, the retained values being those the sample branch of the same call leaves.
In every state reached by `setup` and calls of `loop` the retained temperature
(humidity) is NaN iff no sample tick so far has read a valid temperature (humidity). -/
theorem report_payload_sentinel :
    (∀ (e : Env) (w : World), reportDue e w →
      (loop e w).postLog = w.postLog ++
        [{ smoke := (loop e w).lastSmoke,
           temp := if isnan (loop e w).lastTemp = true then Flt.fin 0
                   else (loop e w).lastTemp,
           hum := if isnan (loop e w).lastHum = true then Flt.fin 0
                  else (loop e w).lastHum }]) ∧
    (∀ (e0 : Env) (es : List Env),
      isnan (run e0 es).lastTemp = true ↔
        ∀ pre e post, es = pre ++ e :: post → sampleDue e (run e0 pre) →
          isnan e.temp = true) ∧
    (∀ (e0 : Env) (es : List Env),
      isnan (run e0 es).lastHum = true ↔
        ∀ pre e post, es = pre ++ e :: post → sampleDue e (run e0 pre) →
          isnan e.hum = true) := by
  refine ⟨?_, ?_, ?_⟩
  · intro e w hdue
    have h := (loop_report e w).2.1
    rw [if_pos hdue] at h
    exact h
  · intro e0 es
    have h := loops_nan_iff World.lastTemp Env.temp (fun e w => (loop_retained e w).1) es
      (setup e0 boot)
    have h0 : isnan (setup e0 boot).lastTemp = true := by
      rw [(setup_readings e0).2.1]
      rfl
    exact h.trans ⟨fun x => x.2, fun x => ⟨h0, x⟩⟩
  · intro e0 es
    have h := loops_nan_iff World.lastHum Env.hum (fun e w => (loop_retained e w).2) es
      (setup e0 boot)
    have h0 : isnan (setup e0 boot).lastHum = true := by
      rw [(setup_readings e0).2.2]
      rfl
    exact h.trans ⟨fun x => x.2, fun x => ⟨h0, x⟩⟩

/-- A report before any valid DHT reading carries 0 for both values; after a tick that
read 25 degrees and 40 percent, a report made while the sensor fails carries 25 and
40. -/
theorem report_payload_sentinel_witness :
    reportDue tenSeconds (run quiet []) ∧
    (run quiet [tenSeconds]).postLog =
      [{ smoke := 500, temp := Flt.fin 0, hum := Flt.fin 0 }] ∧
    (∀ pre e post, [tenSeconds] = pre ++ e :: post → sampleDue e (run quiet pre) →
      isnan e.temp = true) ∧
    (run quiet [warm, tenSeconds]).postLog =
      [{ smoke := 500, temp := Flt.fin 25, hum := Flt.fin 40 }] ∧
    (loop tenSeconds (run quiet [warm])).postLog = (run quiet [warm]).postLog ++
      [{ smoke := (loop tenSeconds (run quiet [warm])).lastSmoke,
         temp := if isnan (loop tenSeconds (run quiet [warm])).lastTemp = true then Flt.fin 0
                 else (loop tenSeconds (run quiet [warm])).lastTemp,
         hum := if isnan (loop tenSeconds (run quiet [warm])).lastHum = true then Flt.fin 0
                else (loop tenSeconds (run quiet [warm])).lastHum }] :=
  ⟨by decide, by decide,
    (report_payload_sentinel.2.1 quiet [tenSeconds]).1 (by decide),
    by decide,
    report_payload_sentinel.1 tenSeconds (run quiet [warm]) (by decide)⟩

/-- While the temperature reads fail, calls of `loop` leave `lastTemp` alone. -/
theorem loops_retain_temp (es : List Env) (w : World)
    (hfail : ∀ e ∈ es, isnan e.temp = true) :
    (loops es w).lastTemp = w.lastTemp := by
  induction es generalizing w with
  | nil => rfl
  | cons a es ih =>
      have ha := hfail a (List.mem_cons_self a es)
      have hstep : (loop a w).lastTemp = w.lastTemp := by
        rw [(loop_retained a w).1, if_neg]
        intro h
        rw [ha] at h
        exact absurd h.2 (by decide)
      show (loops es (loop a w)).lastTemp = w.lastTemp
      rw [ih (loop a w) (fun e he => hfail e (List.mem_cons_of_mem a he)), hstep]

/-- A call of `loop` leaves the level at `DANGER` whenever it leaves a valid retained
temperature of at least `TEMP_DANGER`, provided that was so before the call. -/
theorem hotInv_loop (e : Env) (w : World)
    (hinv : isnan w.lastTemp = false → Flt.ge w.lastTemp TEMP_DANGER = true →
      w.lastLevel = Level.DANGER)
    (hv : isnan (loop e w).lastTemp = false)
    (hh : Flt.ge (loop e w).lastTemp TEMP_DANGER = true) :
    (loop e w).lastLevel = Level.DANGER := by
  by_cases hdue : sampleDue e w
  · obtain ⟨_, h2, _, h4⟩ := (loop_readings e w).1 hdue
    rw [h4, ← h2]
    apply decideLevel_hot
    rw [hv, hh]
    rfl
  · obtain ⟨_, h2, _, h4⟩ := (loop_readings e w).2 hdue
    rw [h4]
    rw [h2] at hv hh
    exact hinv hv hh

/-- In every state of a run, a valid retained temperature of at least `TEMP_DANGER`
comes with the level `DANGER`. -/
theorem hotInv_loops (es : List Env) (w : World)
    (hinv : isnan w.lastTemp = false → Flt.ge w.lastTemp TEMP_DANGER = true →
      w.lastLevel = Level.DANGER) :
    isnan (loops es w).lastTemp = false → Flt.ge (loops es w).lastTemp TEMP_DANGER = true →
      (loops es w).lastLevel = Level.DANGER := by
  induction es generalizing w with
  | nil => exact hinv
  | cons a es ih => exact ih (loop a w) (hotInv_loop a w hinv)

/-- C18. Hot retained temperature latches `DANGER`: in every state reached by `setup`
followed by calls of `loop`, if `lastTemp` is valid and at least `TEMP_DANGER` then
`lastLevel` is `DANGER`; and while the temperature reads keep failing after such a state,
`lastTemp` is retained and the level is `DANGER` after every further call, whatever the
smoke. -/
theorem hot_temperature_latches_danger :
    (∀ (e0 : Env) (es : List Env),
      isnan (run e0 es).lastTemp = false → Flt.ge (run e0 es).lastTemp TEMP_DANGER = true →
      (run e0 es).lastLevel = Level.DANGER) ∧
    (∀ (e0 : Env) (es es' : List Env),
      isnan (run e0 es).lastTemp = false → Flt.ge (run e0 es).lastTemp TEMP_DANGER = true →
      (∀ e ∈ es', isnan e.temp = true) →
      (run e0 (es ++ es')).lastTemp = (run e0 es).lastTemp ∧
      (run e0 (es ++ es')).lastLevel = Level.DANGER) := by
  have hbase : ∀ e0 : Env, isnan (setup e0 boot).lastTemp = false →
      Flt.ge (setup e0 boot).lastTemp TEMP_DANGER = true →
      (setup e0 boot).lastLevel = Level.DANGER := by
    intro e0 h
    rw [(setup_readings e0).2.1] at h
    exact absurd h (by decide)
  refine ⟨fun e0 es => hotInv_loops es (setup e0 boot) (hbase e0), ?_⟩
  intro e0 es es' hv hh hfail
  have hkeep : (run e0 (es ++ es')).lastTemp = (run e0 es).lastTemp := by
    unfold run
    rw [loops_append]
    exact loops_retain_temp es' _ hfail
  refine ⟨hkeep, hotInv_loops (es ++ es') (setup e0 boot) (hbase e0) ?_ ?_⟩
  · change isnan (run e0 (es ++ es')).lastTemp = false
    rw [hkeep]
    exact hv
  · change Flt.ge (run e0 (es ++ es')).lastTemp TEMP_DANGER = true
    rw [hkeep]
    exact hh

/-- A tick reads 60 degrees with smoke 100: the level is `DANGER`; two more ticks with
smoke 100 and a failing sensor keep the 60 degrees and the level `DANGER`. -/
theorem hot_temperature_latches_danger_witness :
    (run quiet [hot]).lastTemp = Flt.fin 60 ∧
    (run quiet [hot]).lastSmoke = 100 ∧
    (∀ e ∈ [clean, clean], isnan e.temp = true) ∧
    (run quiet ([hot] ++ [clean, clean])).lastSmoke = 100 ∧
    (run quiet [hot]).lastLevel = Level.DANGER ∧
    ((run quiet ([hot] ++ [clean, clean])).lastTemp = (run quiet [hot]).lastTemp ∧
      (run quiet ([hot] ++ [clean, clean])).lastLevel = Level.DANGER) :=
  ⟨by decide, by decide, by decide, by decide,
    hot_temperature_latches_danger.1 quiet [hot] (by decide) (by decide),
    hot_temperature_latches_danger.2 quiet [hot] [clean, clean] (by decide) (by decide)
      (by decide)⟩

/-! ## The signal filter -/

/-- The exact sum, one sample more. -/
theorem sampleSum_succ (adc : Nat → Int) (n : Nat) :
    sampleSum adc (n + 1) = sampleSum adc n + adc n := by
  unfold sampleSum
  rw [List.range_succ, List.map_append, List.sum_append]
  simp

/-- Bounds on the samples bound the exact sum. -/
theorem sampleSum_bounds (adc : Nat → Int) (lo hi : Int) (n : Nat)
    (h : ∀ i, i < n → lo ≤ adc i ∧ adc i ≤ hi) :
    (n : Int) * lo ≤ sampleSum adc n ∧ sampleSum adc n ≤ (n : Int) * hi := by
  induction n with
  | zero => simp [sampleSum]
  | succ n ih =>
      obtain ⟨i1, i2⟩ := ih (fun i hi => h i (Nat.lt_succ_of_lt hi))
      obtain ⟨a1, a2⟩ := h n (Nat.lt_succ_self n)
      rw [sampleSum_succ]
      push_cast
      constructor <;> nlinarith

/-- With 16-bit samples the accumulator of the filter loop holds the exact sum after
each of the 20 rounds: the 32-bit wrap never acts. -/
theorem readMQ2Loop_exact (adc : Nat → Int) (w : World) (n : Nat) (hn : n ≤ 20)
    (h16 : ∀ i, i < 20 → 0 ≤ adc i ∧ adc i ≤ 65535) :
    (readMQ2Loop adc n (0, w)).1 = sampleSum adc n := by
  induction n with
  | zero => rfl
  | succ n ih =>
      have hb := sampleSum_bounds adc 0 65535 n (fun i hi => h16 i (by omega))
      have hbn : (n : Int) ≤ 19 := by omega
      obtain ⟨a1, a2⟩ := h16 n (by omega)
      simp only [readMQ2Loop]
      rw [ih (by omega), sampleSum_succ]
      unfold wrapI32
      have h1 : 0 ≤ sampleSum adc n := by nlinarith [hb.1]
      have h2 : sampleSum adc n ≤ 19 * 65535 := by nlinarith [hb.2]
      omega

/-- C14. Signal filter: for 20 raw samples in the range of the `uint16_t` that
`analogRead` returns, the 32-bit accumulator holds the exact sum after every round and
`readMQ2Filtered` returns the mean truncated to an integer, which is `floor (sum / 20)`;
the result lies between the smallest and the largest sample, hence in `0..4095` when
every sample does. -/
theorem signal_filter (adc : Nat → Int) (w : World)
    (h16 : ∀ i, i < 20 → 0 ≤ adc i ∧ adc i ≤ 65535) :
    (∀ n, n ≤ 20 → (readMQ2Loop adc n (0, w)).1 = sampleSum adc n) ∧
    (readMQ2Filtered adc w).1 = Int.tdiv (sampleSum adc 20) 20 ∧
    (readMQ2Filtered adc w).1 = sampleSum adc 20 / 20 ∧
    (∃ i, i < 20 ∧ adc i ≤ (readMQ2Filtered adc w).1) ∧
    (∃ j, j < 20 ∧ (readMQ2Filtered adc w).1 ≤ adc j) ∧
    ((∀ i, i < 20 → adc i ≤ 4095) →
      0 ≤ (readMQ2Filtered adc w).1 ∧ (readMQ2Filtered adc w).1 ≤ 4095) := by
  have hsum : (readMQ2Loop adc 20 (0, w)).1 = sampleSum adc 20 :=
    readMQ2Loop_exact adc w 20 (Nat.le_refl 20) h16
  have hnn : 0 ≤ sampleSum adc 20 := by
    have := (sampleSum_bounds adc 0 65535 20 h16).1
    simpa using this
  have htr : (readMQ2Filtered adc w).1 = Int.tdiv (sampleSum adc 20) 20 := by
    unfold readMQ2Filtered
    dsimp only
    rw [hsum]
  have hfl : (readMQ2Filtered adc w).1 = sampleSum adc 20 / 20 := by
    rw [htr, Int.tdiv_eq_ediv hnn (by norm_num)]
  have hbound : ∀ lo hi : Int, (∀ i, i < 20 → lo ≤ adc i ∧ adc i ≤ hi) →
      lo ≤ (readMQ2Filtered adc w).1 ∧ (readMQ2Filtered adc w).1 ≤ hi := by
    intro lo hi hb
    obtain ⟨b1, b2⟩ := sampleSum_bounds adc lo hi 20 hb
    rw [hfl]
    push_cast at b1 b2
    omega
  refine ⟨fun n hn => readMQ2Loop_exact adc w n hn h16, htr, hfl, ?_, ?_, ?_⟩
  · by_contra hno
    push_neg at hno
    have := (hbound ((readMQ2Filtered adc w).1 + 1) 65535
      (fun i hi => ⟨by have := hno i hi; omega, (h16 i hi).2⟩)).1
    omega
  · by_contra hno
    push_neg at hno
    have := (hbound 0 ((readMQ2Filtered adc w).1 - 1)
      (fun i hi => ⟨(h16 i hi).1, by have := hno i hi; omega⟩)).2
    omega
  · intro h12
    exact hbound 0 4095 (fun i hi => ⟨(h16 i hi).1, h12 i hi⟩)

/-- Ten samples of 4095 and ten of 0: the sum is 40950 and the filter returns 2047, the
mean 2047.5 truncated. -/
theorem signal_filter_witness :
    (∀ i, i < 20 → 0 ≤ alternating i ∧ alternating i ≤ 65535) ∧
    sampleSum alternating 20 = 40950 ∧
    (readMQ2Filtered alternating boot).1 = 2047 ∧
    (readMQ2Filtered alternating boot).1 = sampleSum alternating 20 / 20 :=
  ⟨by decide, by decide, by decide, (signal_filter alternating boot (by decide)).2.2.1⟩

/-! ## The network and the controller state -/

/-- C13, as stated, fails for the IR command and timestamp.  After `setup` and one call of
`loop` in which a connect attempt times out and red is sent at 28000 ms, the next call is
a connectivity tick and a sample tick whose level drops to `WARN`.  With the link up the
yellow command is requested 100 ms after the red one and dropped, so red stays recorded
with its timestamp 28000; with the link down the connect attempt takes 15000 ms first,
the yellow command passes the 350 ms test, and yellow is recorded at 43100.  The two
environments differ in the WiFi link state only. -/
theorem network_shifts_ir_state :
    sameButNet backOnline stillOffline ∧
    wifiDue backOnline (run quiet [offline]) ∧ sampleDue backOnline (run quiet [offline]) ∧
    (run quiet [offline]).lastIrCmdSent = IR_CMD_RED ∧
    (run quiet [offline]).lastIrSendMs = 28000 ∧
    (loop backOnline (run quiet [offline])).lastLevel = Level.WARN ∧
    (loop stillOffline (run quiet [offline])).lastLevel = Level.WARN ∧
    (loop backOnline (run quiet [offline])).lastIrCmdSent = IR_CMD_RED ∧
    (loop stillOffline (run quiet [offline])).lastIrCmdSent = IR_CMD_YELLOW ∧
    (loop backOnline (run quiet [offline])).lastIrSendMs = 28000 ∧
    (loop stillOffline (run quiet [offline])).lastIrSendMs = 43100 ∧
    ctl (loop backOnline (run quiet [offline])) ≠ ctl (loop stillOffline (run quiet [offline])) :=
  ⟨⟨⟨rfl, rfl, rfl, rfl⟩, rfl, rfl⟩, by decide, by decide, by decide, by decide, by decide,
    by decide, by decide, by decide, by decide, by decide,
    fun h => absurd (congrArg (fun c => c.2.1) h) (by decide)⟩

/-- The controller state after `loop` is the one the sample branch leaves, with
`tLastPost` set to the clock value read by `loop` if the report branch ran. -/
theorem loop_ctl (e : Env) (w : World) :
    ctl (loop e w) =
      ctl { afterSample e w with
            tLastPost := if reportDue e w then millis (delay e.idle w) else w.tLastPost } := by
  obtain ⟨h1, h2, h3, h4, h5, h6, _⟩ := loop_fields e w
  obtain ⟨r1, _, r3, r4⟩ := loop_report e w
  unfold ctl
  rw [h1, h2, h3, h4, h5, h6, r1, r3, r4]

/-- Whether a call of `loop` is a connectivity, sample or report tick depends on the
environment through the call time alone. -/
theorem due_congr (e e' : Env) (w : World) (hi : e.idle = e'.idle) :
    (wifiDue e w ↔ wifiDue e' w) ∧ (sampleDue e w ↔ sampleDue e' w) ∧
    (reportDue e w ↔ reportDue e' w) ∧
    millis (delay e.idle w) = millis (delay e'.idle w) := by
  refine ⟨?_, ?_, ?_, by rw [hi]⟩
  · unfold wifiDue
    rw [hi]
  · rw [sampleDue_iff, sampleDue_iff, hi]
  · rw [reportDue_iff, reportDue_iff, hi]

/-- The level and the readings after `loop` depend on the environment through the call
time and the sensor readings alone. -/
theorem loop_readings_congr (e e' : Env) (w : World) (h : sameSensing e e') :
    (loop e w).lastLevel = (loop e' w).lastLevel ∧
    (loop e w).lastSmoke = (loop e' w).lastSmoke ∧
    (loop e w).lastTemp = (loop e' w).lastTemp ∧
    (loop e w).lastHum = (loop e' w).lastHum := by
  obtain ⟨hi, ha, ht, hh⟩ := h
  have hd := (due_congr e e' w hi).2.1
  by_cases hdue : sampleDue e w
  · obtain ⟨a1, a2, a3, a4⟩ := (loop_readings e w).1 hdue
    obtain ⟨b1, b2, b3, b4⟩ := (loop_readings e' w).1 (hd.1 hdue)
    rw [a1, a2, a3, a4, b1, b2, b3, b4, ha, ht, hh]
    exact ⟨rfl, rfl, rfl, rfl⟩
  · obtain ⟨a1, a2, a3, a4⟩ := (loop_readings e w).2 hdue
    obtain ⟨b1, b2, b3, b4⟩ := (loop_readings e' w).2 (fun x => hdue (hd.2 x))
    rw [a1, a2, a3, a4, b1, b2, b3, b4]
    exact ⟨rfl, rfl, rfl, rfl⟩

/-- Without a connect attempt, branch A at most stores the clock value in `tLastWifi`. -/
theorem atSample_noConnect (e : Env) (w : World) (hn : noConnect e w) :
    atSample e w =
      if wifiDue e w then { delay e.idle w with tLastWifi := millis (delay e.idle w) }
      else delay e.idle w := by
  unfold atSample
  dsimp only
  by_cases hd : wifiDue e w
  · have hd2 : u32sub (millis (delay e.idle w)) (delay e.idle w).tLastWifi ≥ WIFI_CHECK_MS := hd
    have hup : e.wifi (w.clock + e.idle) = true := hn hd
    rw [if_pos hd2, if_pos hd]
    unfold wifiTask
    dsimp only [delay]
    rw [if_neg]
    rw [hup]
    decide
  · have hd2 : ¬ u32sub (millis (delay e.idle w)) (delay e.idle w).tLastWifi ≥ WIFI_CHECK_MS :=
      hd
    rw [if_neg hd2, if_neg hd]

/-- Two environments that differ at most in the network, neither making a connect
attempt, leave the same state on reaching branch C. -/
theorem afterSample_congr (e e' : Env) (w : World) (h : sameButNet e e')
    (hn : noConnect e w) (hn' : noConnect e' w) :
    afterSample e w = afterSample e' w := by
  obtain ⟨⟨hi, ha, ht, hh⟩, hdm, htx⟩ := h
  obtain ⟨dw, ds, _, hnow⟩ := due_congr e e' w hi
  have hat : atSample e w = atSample e' w := by
    rw [atSample_noConnect e w hn, atSample_noConnect e' w hn', hi]
    by_cases hd : wifiDue e w
    · rw [if_pos hd, if_pos (dw.1 hd)]
    · rw [if_neg hd, if_neg (fun x => hd (dw.2 x))]
  have hact : ∀ s : World, sampleAct e s = sampleAct e' s := by
    intro s
    unfold sampleAct
    rw [htx]
  unfold afterSample
  by_cases hdue : sampleDue e w
  · rw [if_pos hdue, if_pos (ds.1 hdue)]
    unfold atDecide
    rw [sampleRead_eq, sampleRead_eq, hact, hat, hnow, ha, ht, hh, hdm]
  · rw [if_neg hdue, if_neg (fun x => hdue (ds.2 x)), hat]

/-- C13, amended.  Whatever the reporter does, the report branch changes no controller
variable but `tLastPost`, and whatever the connectivity collaborator does, the
connectivity branch changes none but `tLastWifi`; so the controller state after a call
of `loop` is the one the sample branch leaves, with `tLastPost` updated.  The level and
the retained readings after the call depend on the call time and the sensor readings
alone.  The whole controller state, the IR command and timestamp included, is the same
for two environments that differ only in the network when neither makes a connect
attempt in the call. -/
theorem network_independence :
    (∀ (e : Env) (now : Nat) (w : World),
      ctl (reportTask e now w) = ctl { w with tLastPost := now }) ∧
    (∀ (e : Env) (now : Nat) (w : World),
      ctl (wifiTask e now w) = ctl { w with tLastWifi := now }) ∧
    (∀ (e : Env) (w : World),
      ctl (loop e w) =
        ctl { afterSample e w with
              tLastPost := if reportDue e w then millis (delay e.idle w) else w.tLastPost }) ∧
    (∀ (e e' : Env) (w : World), sameSensing e e' →
      (loop e w).lastLevel = (loop e' w).lastLevel ∧
      (loop e w).lastSmoke = (loop e' w).lastSmoke ∧
      (loop e w).lastTemp = (loop e' w).lastTemp ∧
      (loop e w).lastHum = (loop e' w).lastHum) ∧
    (∀ (e e' : Env) (w : World), sameButNet e e' → noConnect e w → noConnect e' w →
      ctl (loop e w) = ctl (loop e' w)) := by
  refine ⟨?_, ?_, loop_ctl, loop_readings_congr, ?_⟩
  · intro e now w
    rw [reportTask_frame]
    rfl
  · intro e now w
    rw [wifiTask_frame]
    rfl
  · intro e e' w h hn hn'
    obtain ⟨_, _, dr, hnow⟩ := due_congr e e' w h.1.1
    rw [loop_ctl, loop_ctl, afterSample_congr e e' w h hn hn', hnow]
    by_cases hr : reportDue e w
    · rw [if_pos hr, if_pos (dr.1 hr)]
    · rw [if_neg hr, if_neg (fun x => hr (dr.2 x))]

/-- In the state of the counterexample the two link states give the same level; in a
sample tick that is not a connectivity tick (2000 ms after a tick that sent red) they
give the same controller state, yellow being sent in both; and in a call that is a
connectivity, a sample and a report tick with the link up, a successful POST and a
failing `http.begin` give the same controller state and different HTTP logs. -/
theorem network_independence_witness :
    sameSensing backOnline stillOffline ∧
    (loop backOnline (run quiet [offline])).lastLevel =
      (loop stillOffline (run quiet [offline])).lastLevel ∧
    sameButNet clean cleanOffline ∧
    ¬ wifiDue clean (run quiet [smoky]) ∧ sampleDue clean (run quiet [smoky]) ∧
    (run quiet [smoky]).lastIrCmdSent = IR_CMD_RED ∧
    (loop cleanOffline (run quiet [smoky])).lastIrCmdSent = IR_CMD_YELLOW ∧
    ctl (loop clean (run quiet [smoky])) = ctl (loop cleanOffline (run quiet [smoky])) ∧
    sameButNet twelveSeconds twelveSecondsNoHttp ∧
    wifiDue twelveSeconds (run quiet []) ∧ sampleDue twelveSeconds (run quiet []) ∧
    reportDue twelveSeconds (run quiet []) ∧
    noConnect twelveSeconds (run quiet []) ∧ noConnect twelveSecondsNoHttp (run quiet []) ∧
    (loop twelveSeconds (run quiet [])).httpLog ≠
      (loop twelveSecondsNoHttp (run quiet [])).httpLog ∧
    (loop twelveSeconds (run quiet [])).lastIrCmdSent = IR_CMD_RED ∧
    ctl (loop twelveSeconds (run quiet [])) = ctl (loop twelveSecondsNoHttp (run quiet [])) :=
  ⟨⟨rfl, rfl, rfl, rfl⟩,
    (network_independence.2.2.2.1 backOnline stillOffline (run quiet [offline])
      ⟨rfl, rfl, rfl, rfl⟩).1,
    ⟨⟨rfl, rfl, rfl, rfl⟩, rfl, rfl⟩, by decide, by decide, by decide, by decide,
    network_independence.2.2.2.2 clean cleanOffline (run quiet [smoky])
      ⟨⟨rfl, rfl, rfl, rfl⟩, rfl, rfl⟩ (fun h => absurd h (by decide))
      (fun h => absurd h (by decide)),
    ⟨⟨rfl, rfl, rfl, rfl⟩, rfl, rfl⟩, by decide, by decide, by decide,
    fun _ => rfl, fun _ => rfl, by decide, by decide,
    network_independence.2.2.2.2 twelveSeconds twelveSecondsNoHttp (run quiet [])
      ⟨⟨rfl, rfl, rfl, rfl⟩, rfl, rfl⟩ (fun _ => rfl) (fun _ => rfl)⟩

end Firmware
